import Mathlib

/-!
Shallow embedding of the FHIR-bundle summarizer in
`Chromadb_rag/Fhir_to_chromadb.py` (class `FHIRToChromaDB`), together with
proofs about the claims on its behaviour.

Conventions of the embedding:
* JSON objects become structures whose fields are `Option`s (a missing key is
  `none`); JSON arrays become `List`s.  Where the Python code distinguishes a
  missing key from a present-but-empty array (a get-with-default-singleton then index-zero chain crashes on
  `[]` but not on a missing key) the field is `Option (List _)`.
* Python `dict`s built dynamically (the patient-info mapping) become
  association lists with Python's insertion/update semantics (`dictSet`).
* Exceptions (`ValueError`, `KeyError`, `IndexError`) become `Except String`.
* `datetime.now().isoformat()[:10]` is an explicit parameter `now`.
* Python string primitives (`lower`, `capitalize`, slicing, `split()`,
  lexicographic comparison, `in`) are modelled character-list-wise below.
-/

/-- Python `s[:n]` on strings. -/
def pySlice (s : String) (n : Nat) : String :=
  ⟨s.data.take n⟩

/-- Python `s.lower()` (ASCII, as used by the summarizer's keyword checks). -/
def pyLower (s : String) : String :=
  ⟨s.data.map Char.toLower⟩

/-- Python `s.replace(pat, rep)` for the single-character patterns the
summarizer uses (`':'` and `' '`). -/
def pyReplaceChar (s : String) (pat rep : Char) : String :=
  ⟨s.data.map (fun c => if c = pat then rep else c)⟩

/-- Python `s.capitalize()`: first character upper-cased, rest lower-cased. -/
def pyCapitalize (s : String) : String :=
  match s.data with
  | [] => ""
  | c :: rest => ⟨c.toUpper :: rest.map Char.toLower⟩

/-- Python `s.strip()`. -/
def pyStrip (s : String) : String :=
  ⟨((s.data.dropWhile Char.isWhitespace).reverse.dropWhile Char.isWhitespace).reverse⟩

/-- Lexicographic strict order on character lists (Python string `<`). -/
def charListLt : List Char → List Char → Bool
  | _, [] => false
  | [], _ :: _ => true
  | a :: as, b :: bs => decide (a < b) || (a == b && charListLt as bs)

/-- Python `a < b` on strings. -/
def pyStrLt (a b : String) : Bool :=
  charListLt a.data b.data

/-- Python `a <= b` on strings. -/
def pyStrLe (a b : String) : Bool :=
  !(pyStrLt b a)

/-- Whether `l₂` occurs as a contiguous infix of `l₁` (Python `in` on strings). -/
def listHasInfix (nee : List Char) : List Char → Bool
  | [] => nee.isEmpty
  | c :: rest => nee.isPrefixOf (c :: rest) || listHasInfix nee rest

/-- Python `nee in hay` for strings. -/
def strContains (hay nee : String) : Bool :=
  listHasInfix nee.data hay.data

/-- Helper for Python `s.split()`: accumulate the current word (reversed). -/
def wordsAux : List Char → List Char → List (List Char)
  | cur, [] => if cur.isEmpty then [] else [cur.reverse]
  | cur, c :: rest =>
    if c.isWhitespace then
      if cur.isEmpty then wordsAux [] rest else cur.reverse :: wordsAux [] rest
    else
      wordsAux (c :: cur) rest

/-- Python `s.split()` (split on whitespace runs, dropping empty pieces). -/
def pySplit (s : String) : List String :=
  (wordsAux [] s.data).map (fun w => ⟨w⟩)

/-- Python `list(set(xs))` for strings, modelled as first-occurrence dedup
(a deterministic iteration order standing in for CPython's hash order). -/
def pyDedup : List String → List String
  | [] => []
  | x :: rest => if x ∈ rest then pyDedup rest else x :: pyDedup rest

/-- Digits-to-value. -/
def digitsVal (l : List Char) : Nat :=
  l.foldl (fun a c => a * 10 + (c.toNat - 48)) 0

/-- An exact decimal fraction `num / 10^shift` (the values Python `float`
takes on the decimal literals the vitals carry). -/
structure DecQ where
  num : Int
  shift : Nat
  deriving Repr, DecidableEq

def pow10 : Nat → Int
  | 0 => 1
  | n + 1 => 10 * pow10 n

/-- Comparison `a ≤ b` on decimal fractions, by cross-multiplication. -/
def decLe (a b : DecQ) : Bool :=
  decide (a.num * pow10 b.shift ≤ b.num * pow10 a.shift)

/-- Comparison `a < b` on decimal fractions. -/
def decLt (a b : DecQ) : Bool :=
  decide (a.num * pow10 b.shift < b.num * pow10 a.shift)

/-- Model of Python `float(s)` on decimal literals: optional sign, digits,
optional fractional part.  Exact value. -/
def parseFloatD (s : String) : Option DecQ :=
  let core : List Char → Option DecQ := fun l =>
    let ip := l.takeWhile Char.isDigit
    let rest := l.dropWhile Char.isDigit
    match rest with
    | [] => if ip.isEmpty then none else some ⟨(digitsVal ip : Int), 0⟩
    | '.' :: fr =>
      if fr.all Char.isDigit && !(ip.isEmpty && fr.isEmpty) then
        some ⟨(digitsVal ip : Int) * pow10 fr.length + (digitsVal fr : Int),
          fr.length⟩
      else none
    | _ => none
  match s.data with
  | '-' :: r => (core r).map (fun d => ⟨-d.num, d.shift⟩)
  | '+' :: r => core r
  | r => core r

/-- Model of Python `int(s)`: optional sign then digits only. -/
def parseIntQ (s : String) : Option Int :=
  let core : List Char → Option Int := fun l =>
    if l.all Char.isDigit && !l.isEmpty then some (digitsVal l : Int) else none
  match s.data with
  | '-' :: r => (core r).map Neg.neg
  | '+' :: r => core r
  | r => core r

/-- First binding of a key in an association list (Python `d[k]` / `k in d`). -/
def alFind {α : Type} : List (String × α) → String → Option α
  | [], _ => none
  | (k2, v) :: rest, k => if k2 = k then some v else alFind rest k

/-- Python `d[k] = v`: update in place if the key exists, else append. -/
def alSet {α : Type} : List (String × α) → String → α → List (String × α)
  | [], k, v => [(k, v)]
  | (k2, v2) :: rest, k, v =>
    if k2 = k then (k, v) :: rest else (k2, v2) :: alSet rest k v

/-- The dynamically built string-valued mappings (patient info). -/
abbrev Dict := List (String × String)

def dictSet (d : Dict) (k v : String) : Dict := alSet d k v

/-- Python `d.get(k, dflt)`. -/
def dictGet (d : Dict) (k dflt : String) : String :=
  (alFind d k).getD dflt

/-- Scalar metadata values (Python str / int / bool). -/
inductive MVal where
  | s : String → MVal
  | i : Int → MVal
  | b : Bool → MVal
  deriving Repr, DecidableEq

/-- A metadata record: the literal key/value dict attached to one summary. -/
abbrev Meta := List (String × MVal)

def metaFind (m : Meta) (k : String) : Option MVal := alFind m k

/-! ## The FHIR data model (the fields the summarizer reads) -/

structure Coding where
  code : Option String := none
  display : Option String := none
  deriving Repr, DecidableEq

structure CodeableConcept where
  text : Option String := none
  coding : Option (List Coding) := none
  deriving Repr, DecidableEq

structure HumanName where
  family : Option String := none
  given : List String := []
  prefixes : List String := []
  deriving Repr, DecidableEq

structure PAddress where
  line : List String := []
  city : Option String := none
  state : Option String := none
  postalCode : Option String := none
  country : Option String := none
  deriving Repr, DecidableEq

structure ContactPoint where
  system : Option String := none
  value : Option String := none
  deriving Repr, DecidableEq

structure SubExtension where
  url : Option String := none
  valueString : Option String := none
  deriving Repr, DecidableEq

structure PExtension where
  url : Option String := none
  subext : List SubExtension := []
  deriving Repr, DecidableEq

structure Quantity where
  value : Option String := none
  unit : Option String := none
  deriving Repr, DecidableEq

structure Dosage where
  text : Option String := none
  deriving Repr, DecidableEq

structure Period where
  start : Option String := none
  deriving Repr, DecidableEq

structure Reaction where
  manifestation : Option (List CodeableConcept) := none
  deriving Repr, DecidableEq

structure OnsetAge where
  value : Option String := none
  deriving Repr, DecidableEq

structure FamilyCondition where
  code : Option CodeableConcept := none
  onsetAge : Option OnsetAge := none
  deriving Repr, DecidableEq

/-- One typed sub-resource; the union of the fields the summarizer reads. -/
structure Resource where
  resourceType : Option String := none
  id : Option String := none
  name : List HumanName := []
  gender : Option String := none
  birthDate : Option String := none
  address : List PAddress := []
  telecom : List ContactPoint := []
  maritalStatus : Option CodeableConcept := none
  multipleBirthBoolean : Option Bool := none
  extension : List PExtension := []
  clinicalStatus : Option CodeableConcept := none
  code : Option CodeableConcept := none
  onsetDateTime : Option String := none
  recordedDate : Option String := none
  status : Option String := none
  category : List CodeableConcept := []
  valueQuantity : Option Quantity := none
  valueCodeableConcept : Option CodeableConcept := none
  valueString : Option String := none
  effectiveDateTime : Option String := none
  issued : Option String := none
  authoredOn : Option String := none
  medicationCodeableConcept : Option CodeableConcept := none
  dosageInstruction : List Dosage := []
  vaccineCode : Option CodeableConcept := none
  occurrenceDateTime : Option String := none
  performedPeriod : Option Period := none
  performedDateTime : Option String := none
  reaction : List Reaction := []
  criticality : Option String := none
  relationship : Option CodeableConcept := none
  condition : List FamilyCondition := []
  deriving Repr, DecidableEq

structure Entry where
  resource : Option Resource := none
  deriving Repr, DecidableEq

structure Bundle where
  resourceType : Option String := none
  entry : List Entry := []
  deriving Repr, DecidableEq

theorem dictSet_def (d : Dict) (k v : String) : dictSet d k v = alSet d k v := rfl

/-! ## Field accessors (`_get_codeable_concept_text` / `_get_codeable_concept_code`)

The Python helpers take the result of `d.get(key, {})`; an absent concept
arrives as the falsy `{}` and yields the empty string. -/

/-- Source `_get_codeable_concept_text`: free-text override, else first coding
display, else empty. -/
def _get_codeable_concept_text (cc : Option CodeableConcept) : String :=
  match cc with
  | none => ""
  | some c =>
    match c.text with
    | some t => t
    | none =>
      match c.coding with
      | some (k :: _) => k.display.getD ""
      | _ => ""

/-- Source `_get_codeable_concept_code`: code of the first coding, else empty. -/
def _get_codeable_concept_code (cc : Option CodeableConcept) : String :=
  match cc with
  | none => ""
  | some c =>
    match c.coding with
    | some (k :: _) => k.code.getD ""
    | _ => ""

/-! ## `extract_patient_info` -/

/-- One step of the `telecom` scan: system equal to phone / email. -/
def telecomStep (acc : Dict) (t : ContactPoint) : Dict :=
  let system := t.system.getD ""
  let value := t.value.getD ""
  if system = "phone" then dictSet acc "phone" value
  else if system = "email" then dictSet acc "email" value
  else acc

/-- One step of the race/ethnicity sub-extension scan: keep the sub-extension
keyed `"text"`. -/
def subExtStep (key : String) (acc : Dict) (se : SubExtension) : Dict :=
  if se.url = some "text" then dictSet acc key (se.valueString.getD "") else acc

/-- One step of the `extension` scan: match the URL substring. -/
def extensionStep (acc : Dict) (ext : PExtension) : Dict :=
  let url := ext.url.getD ""
  if strContains url "us-core-race" then
    ext.subext.foldl (subExtStep "race") acc
  else if strContains url "us-core-ethnicity" then
    ext.subext.foldl (subExtStep "ethnicity") acc
  else acc

/-- The name block: only when the `name` list is non-empty. -/
def nameBlock (p : Resource) (d : Dict) : Dict :=
  match p.name with
  | [] => d
  | n :: _ =>
    let family := n.family.getD ""
    let given_names := String.intercalate " " n.given
    let pfx := String.intercalate " " n.prefixes
    let d := dictSet d "family_name" family
    let d := dictSet d "given_names" given_names
    let d := dictSet d "prefix" pfx
    dictSet d "full_name" (pyStrip (pfx ++ " " ++ given_names ++ " " ++ family))

/-- The first-address block: only when the `address` list is non-empty. -/
def addressBlock (p : Resource) (d : Dict) : Dict :=
  match p.address with
  | [] => d
  | a :: _ =>
    let d := dictSet d "address_line" (String.intercalate ", " a.line)
    let d := dictSet d "city" (a.city.getD "")
    let d := dictSet d "state" (a.state.getD "")
    let d := dictSet d "postal_code" (a.postalCode.getD "")
    dictSet d "country" (a.country.getD "")

/-- The marital-status block: free text, else first coding's display. -/
def maritalBlock (p : Resource) (d : Dict) : Dict :=
  match p.maritalStatus with
  | none => d
  | some ms =>
    match ms.text with
    | some t => dictSet d "marital_status" t
    | none =>
      match ms.coding with
      | some (c :: _) => dictSet d "marital_status" (c.display.getD "")
      | _ => d

/-- The multiple-birth block. -/
def multipleBirthBlock (p : Resource) (d : Dict) : Dict :=
  match p.multipleBirthBoolean with
  | none => d
  | some bv => dictSet d "multiple_birth" (if bv then "True" else "False")

/-- Source `extract_patient_info`: the flat field mapping built from a Patient
resource.  Keys are inserted in the source's assignment order; the stored
value for a missing `id` mirrors the Python rendering of `None`. -/
def extract_patient_info (p : Resource) : Dict :=
  let d : Dict := [("id", p.id.getD "None"), ("resourceType", "Patient")]
  let d := nameBlock p d
  let d := dictSet d "gender" (p.gender.getD "")
  let d := dictSet d "birth_date" (p.birthDate.getD "")
  let d := addressBlock p d
  let d := p.telecom.foldl telecomStep d
  let d := maritalBlock p d
  let d := multipleBirthBlock p d
  p.extension.foldl extensionStep d

/-! ## Classifier getters over the Observation bucket -/

/-- Name/value/date/id tuples produced by the three classifiers and
consumed by the vitals/labs/social builders. -/
structure ObsItem where
  name : String := ""
  value : String := ""
  date : String := ""
  id : Option String := none
  deriving Repr, DecidableEq

/-- Category scan: some category coding's code contains the marker
(case-insensitive). -/
def obsCategoryMatches (marker : String) (obs : Resource) : Bool :=
  obs.category.any (fun cat =>
    match cat.coding with
    | none => false
    | some ks => ks.any (fun k => strContains (pyLower (k.code.getD "")) marker))

/-- Source `_get_vital_signs`: quantity (value+unit) or coded value. -/
def _get_vital_signs (observations : List Resource) : List ObsItem :=
  observations.filterMap (fun obs =>
    if obsCategoryMatches "vital" obs then
      let value_str :=
        match obs.valueQuantity with
        | some vq => (vq.value.getD "") ++ " " ++ (vq.unit.getD "")
        | none =>
          match obs.valueCodeableConcept with
          | some vcc => _get_codeable_concept_text (some vcc)
          | none => ""
      some { name := _get_codeable_concept_text obs.code
             value := value_str
             date := pySlice (obs.effectiveDateTime.getD (obs.issued.getD "")) 10
             id := obs.id }
    else none)

/-- Source `_get_lab_results`: quantity values only. -/
def _get_lab_results (observations : List Resource) : List ObsItem :=
  observations.filterMap (fun obs =>
    if obsCategoryMatches "lab" obs then
      let value_str :=
        match obs.valueQuantity with
        | some vq => (vq.value.getD "") ++ " " ++ (vq.unit.getD "")
        | none => ""
      some { name := _get_codeable_concept_text obs.code
             value := value_str
             date := pySlice (obs.effectiveDateTime.getD (obs.issued.getD "")) 10
             id := obs.id }
    else none)

/-- Source `_get_social_history`: coded value or plain string value. -/
def _get_social_history (observations : List Resource) : List ObsItem :=
  observations.filterMap (fun obs =>
    if obsCategoryMatches "social" obs then
      let value_str :=
        match obs.valueCodeableConcept with
        | some vcc => _get_codeable_concept_text (some vcc)
        | none =>
          match obs.valueString with
          | some vs => vs
          | none => ""
      some { name := _get_codeable_concept_text obs.code
             value := value_str
             date := pySlice (obs.effectiveDateTime.getD (obs.issued.getD "")) 10
             id := obs.id }
    else none)

/-! ## Medication partitioning -/

/-- The flat dicts built by `_get_current_medications` / `_get_past_medications`
(`mtype` stands for the Python key named type). -/
structure MedItem where
  name : String := ""
  code : String := ""
  mtype : Option String := none
  status : Option String := none
  date : Option String := none
  dosage : Option String := none
  id : Option String := none
  deriving Repr, DecidableEq

/-- Dosage text: first dosageInstruction entry if the request is typed, else empty. -/
def dosageText (req : Resource) : String :=
  match req.dosageInstruction with
  | [] => ""
  | d :: _ => d.text.getD ""

/-- Source `_get_current_medications`: all Medication resources, plus active/completed
MedicationRequests whose authored-on is empty or whose first four characters
compare at least 2023. -/
def _get_current_medications (medications medication_requests : List Resource) :
    List MedItem :=
  medications.map (fun med =>
    { name := _get_codeable_concept_text med.code
      code := _get_codeable_concept_code med.code
      mtype := some "current"
      id := med.id })
  ++ medication_requests.filterMap (fun req =>
    let status := req.status.getD ""
    if status = "active" || status = "completed" then
      let authored := req.authoredOn.getD ""
      if authored = "" || pyStrLe "2023" (pySlice authored 4) then
        some { name := _get_codeable_concept_text req.medicationCodeableConcept
               code := _get_codeable_concept_code req.medicationCodeableConcept
               mtype := some "prescription"
               status := some status
               date := some (if authored ≠ "" then pySlice authored 10 else "")
               dosage := some (dosageText req)
               id := req.id }
      else none
    else none)

/-- Source `_get_past_medications`: MedicationRequests with a non-empty authored-on
whose first four characters compare below 2023. -/
def _get_past_medications (medication_requests : List Resource) : List MedItem :=
  medication_requests.filterMap (fun req =>
    let status := req.status.getD ""
    let authored := req.authoredOn.getD ""
    if authored ≠ "" && pyStrLt (pySlice authored 4) "2023" then
      some { name := _get_codeable_concept_text req.medicationCodeableConcept
             code := _get_codeable_concept_code req.medicationCodeableConcept
             date := some (pySlice authored 10)
             status := some status
             id := req.id }
    else none)

/-! ## Shared builder helpers -/

/-- Python `enumerate(xs, i)`. -/
def enumFrom {α : Type} (i : Nat) : List α → List (Nat × α)
  | [] => []
  | x :: rest => (i, x) :: enumFrom (i + 1) rest

/-- Left-to-right effectful map for `Except` (a Python loop whose body may
raise). -/
def mapME {α β : Type} (f : α → Except String β) :
    List α → Except String (List β)
  | [] => .ok []
  | x :: rest => do
    let y ← f x
    let ys ← mapME f rest
    pure (y :: ys)

/-- A list comprehension whose predicate may raise (left-to-right, first
raise wins) — used for the clinical-status filters. -/
def exceptFilter {α : Type} (p : α → Except String Bool) :
    List α → Except String (List α)
  | [] => .ok []
  | x :: rest => do
    let b ← p x
    let r ← exceptFilter p rest
    if b then pure (x :: r) else pure r

/-- The messages the modelled Python exceptions carry. -/
def indexErrorMsg : String := "IndexError: list index out of range"

/-- Clinical-status code lookup (source chain clinicalStatus → coding → first →
code): yields `none` on missing pieces, IndexError on a present-but-empty
coding list. -/
def condClinicalCode (c : Resource) : Except String (Option String) :=
  match c.clinicalStatus with
  | none => .ok none
  | some cs =>
    match cs.coding with
    | none => .ok none
    | some [] => .error indexErrorMsg
    | some (k :: _) => .ok k.code

/-- The condition name/code pair used by both condition builders:
`code.text`, else the display of the first coding (default Unknown) plus its code. -/
def condName (c : Resource) : String × String :=
  match c.code with
  | none => ("Unknown Condition", "")
  | some code =>
    match code.text with
    | some t => (t, "")
    | none =>
      match code.coding with
      | some (k :: _) => (k.display.getD "Unknown", k.code.getD "")
      | _ => ("Unknown Condition", "")

/-- Onset date: onsetDateTime, else recordedDate, else Unknown; truncated to 10. -/
def condOnset (c : Resource) : String :=
  pySlice (c.onsetDateTime.getD (c.recordedDate.getD "Unknown")) 10

/-! ## `_create_patient_information_doc` -/

/-- The Address line of the patient-information text: it reads the
full_address key of the patient-info mapping. -/
def patientAddressLine (patient_info : Dict) : String :=
  "Address: " ++ dictGet patient_info "full_address" "Not documented" ++ "\n"

def _create_patient_information_doc (pid pname now : String)
    (patient_info : Dict) : String × Meta :=
  let text :=
    "PATIENT INFORMATION\n\nName: " ++ dictGet patient_info "full_name" "Unknown"
    ++ "\nPatient ID: " ++ dictGet patient_info "id" "Unknown"
    ++ "\nDate of Birth: " ++ dictGet patient_info "birth_date" "Unknown"
    ++ "\nAge: " ++ dictGet patient_info "age" "Unknown" ++ " years old"
    ++ "\nGender: " ++ pyCapitalize (dictGet patient_info "gender" "Unknown")
    ++ "\nRace: " ++ dictGet patient_info "race" "Not documented"
    ++ "\nEthnicity: " ++ dictGet patient_info "ethnicity" "Not documented"
    ++ "\nMarital Status: " ++ dictGet patient_info "marital_status" "Not documented"
    ++ "\n\nCONTACT INFORMATION:\n" ++ patientAddressLine patient_info
    ++ "Phone: " ++ dictGet patient_info "phone" "Not documented" ++ "\n"
  let metadata : Meta :=
    [("document_type", .s "patient_information"),
     ("patient_id", .s pid),
     ("patient_name", .s pname),
     ("age", match alFind patient_info "age" with | some v => .s v | none => .i 0),
     ("gender", .s (dictGet patient_info "gender" "")),
     ("last_updated", .s now)]
  (text, metadata)

/-! ## `_create_active_conditions_doc` -/

/-- Per-condition piece of the active-conditions rendering: the text chunk,
the chronic-conditions contribution, and whether the abuse/violence alert
fired. -/
def activeCondItem (ic : Nat × Resource) : String × List String × Bool :=
  let (i, c) := ic
  let nc := condName c
  let onset := condOnset c
  let base :=
    toString i ++ ". " ++ nc.1 ++ "\n"
    ++ (if nc.2 ≠ "" then "   Code: " ++ nc.2 ++ "\n" else "")
    ++ "   Onset Date: " ++ onset ++ "\n   Status: Active\n"
  let chronicPiece := if strContains (pyLower nc.1) "chronic" then [nc.1] else []
  let alert :=
    strContains (pyLower nc.1) "abuse" || strContains (pyLower nc.1) "violence"
  let textPiece :=
    base
    ++ (if alert then "   ⚠️ ALERT: Requires follow-up and support services\n" else "")
    ++ "\n"
  (textPiece, chronicPiece, alert)

def _create_active_conditions_doc (pid pname now : String)
    (conditions : List Resource) : Except String (String × Meta) := do
  let active ← exceptFilter
    (fun c => (condClinicalCode c).map (fun oc => oc == some "active")) conditions
  let items := (enumFrom 1 active).map activeCondItem
  let text :=
    "ACTIVE MEDICAL CONDITIONS (" ++ toString active.length ++ "):\n\n"
    ++ String.join (items.map (fun x => x.1))
    ++ (if active.isEmpty then "No active conditions documented.\n" else "")
  let chronic_conditions := (items.map (fun x => x.2.1)).flatten
  let has_alerts := items.any (fun x => x.2.2)
  let alert_types :=
    (items.map (fun x => if x.2.2 then ["intimate_partner_abuse"] else [])).flatten
  let metadata : Meta :=
    [("document_type", .s "active_conditions"),
     ("patient_id", .s pid),
     ("patient_name", .s pname),
     ("total_conditions", .i active.length),
     ("chronic_conditions",
       .s (if !chronic_conditions.isEmpty
           then String.intercalate ", " chronic_conditions else "")),
     ("has_alerts", .b has_alerts),
     ("alert_types",
       .s (if !alert_types.isEmpty
           then String.intercalate ", " alert_types else "")),
     ("last_updated", .s now)]
  pure (text, metadata)

/-! ## `_create_past_conditions_doc` -/

def notableKeywords : List String :=
  ["miscarriage", "anemia", "substance", "alcohol", "cancer"]

/-- Per-condition piece of the past-conditions rendering.  The notable-history
check matches a keyword anywhere in the lowered name, then collects
`name.lower().split()[0]` (an IndexError if the split were empty). -/
def pastCondItem (ic : Nat × Resource) : Except String (String × List String) :=
  let (i, c) := ic
  let nc := condName c
  let onset := condOnset c
  let textPiece :=
    toString i ++ ". " ++ nc.1 ++ "\n"
    ++ (if nc.2 ≠ "" then "   Code: " ++ nc.2 ++ "\n" else "")
    ++ "   Date: " ++ onset ++ "\n   Status: Resolved\n\n"
  if notableKeywords.any (fun kw => strContains (pyLower nc.1) kw) then
    match pySplit (pyLower nc.1) with
    | [] => .error indexErrorMsg
    | w :: _ => .ok (textPiece, [w])
  else .ok (textPiece, [])

def _create_past_conditions_doc (pid pname now : String)
    (conditions : List Resource) : Except String (String × Meta) := do
  let past ← exceptFilter
    (fun c => (condClinicalCode c).map (fun oc => !(oc == some "active"))) conditions
  let items ← mapME pastCondItem (enumFrom 1 past)
  let text :=
    "RESOLVED/PAST MEDICAL CONDITIONS (" ++ toString past.length ++ "):\n\n"
    ++ String.join (items.map (fun x => x.1))
    ++ (if past.isEmpty then "No past conditions documented.\n" else "")
  let notable_history := (items.map (fun x => x.2)).flatten
  let metadata : Meta :=
    [("document_type", .s "past_conditions"),
     ("patient_id", .s pid),
     ("patient_name", .s pname),
     ("total_conditions", .i past.length),
     ("notable_history",
       .s (if !notable_history.isEmpty
           then String.intercalate ", " (pyDedup notable_history) else "")),
     ("last_updated", .s now)]
  pure (text, metadata)

/-! ## Medication documents -/

def controlledDrugs : List String :=
  ["tramadol", "oxycodone", "hydrocodone", "morphine", "fentanyl"]

def contraceptiveTerms : List String :=
  ["contraceptive", "birth control", "iud", "mirena", "levora", "nuvaring"]

/-- Per-medication piece of the current-medications rendering: text chunk,
controlled-substances contribution (`name.split()[0]`), contraceptive flag. -/
def currentMedItem (im : Nat × MedItem) : Except String (String × List String × Bool) :=
  let (i, med) := im
  let name := med.name
  let base :=
    toString i ++ ". " ++ name ++ "\n"
    ++ (if med.code ≠ "" then "   Code: " ++ med.code ++ "\n" else "")
    ++ (match med.dosage with
        | some d => if d ≠ "" then "   Dosage: " ++ d ++ "\n" else ""
        | none => "")
    ++ (match med.date with
        | some d => if d ≠ "" then "   Started: " ++ d ++ "\n" else ""
        | none => "")
  let isControlled := controlledDrugs.any (fun d => strContains (pyLower name) d)
  let isContraceptive :=
    contraceptiveTerms.any (fun t2 => strContains (pyLower name) t2)
  let tail :=
    (if isControlled
     then "   ⚠️ NOTE: Controlled substance - monitor for tolerance/dependence\n"
     else "")
    ++ (if isContraceptive then "   Purpose: Contraception\n" else "") ++ "\n"
  if isControlled then
    match pySplit name with
    | [] => .error indexErrorMsg
    | w :: _ => .ok (base ++ tail, [w], isContraceptive)
  else .ok (base ++ tail, [], isContraceptive)

def _create_current_medications_doc (pid pname now : String)
    (medications : List MedItem) : Except String (String × Meta) := do
  let items ← mapME currentMedItem (enumFrom 1 medications)
  let text :=
    "CURRENT MEDICATIONS (" ++ toString medications.length ++ "):\n\n"
    ++ String.join (items.map (fun x => x.1))
  let controlled_list := (items.map (fun x => x.2.1)).flatten
  let has_controlled := !controlled_list.isEmpty
  let has_contraceptive := items.any (fun x => x.2.2)
  let metadata : Meta :=
    [("document_type", .s "current_medications"),
     ("patient_id", .s pid),
     ("patient_name", .s pname),
     ("total_medications", .i medications.length),
     ("has_controlled_substances", .b has_controlled),
     ("controlled_substances",
       .s (if !controlled_list.isEmpty
           then String.intercalate ", " controlled_list else "")),
     ("contraceptive_use", .b has_contraceptive),
     ("last_updated", .s now)]
  pure (text, metadata)

def pastMedCategoryTerms : List String := ["levora", "nuvaring", "natazia"]

/-- Per-medication piece of the past-medications rendering. -/
def pastMedItem (im : Nat × MedItem) : String × List String :=
  let (i, med) := im
  let name := med.name
  let piece :=
    toString i ++ ". " ++ name ++ "\n   Prescribed: " ++ med.date.getD "Unknown"
    ++ "\n   Status: " ++ pyCapitalize (med.status.getD "") ++ "\n\n"
  let catPiece :=
    if strContains (pyLower name) "contraceptive"
       || pastMedCategoryTerms.any (fun t2 => strContains (pyLower name) t2)
    then ["contraceptive"] else []
  (piece, catPiece)

def _create_past_medications_doc (pid pname now : String)
    (medications : List MedItem) : String × Meta :=
  let items := (enumFrom 1 medications).map pastMedItem
  let text :=
    "PAST MEDICATIONS (" ++ toString medications.length ++ "):\n\n"
    ++ String.join (items.map (fun x => x.1))
  let categories := (items.map (fun x => x.2)).flatten
  let metadata : Meta :=
    [("document_type", .s "past_medications"),
     ("patient_id", .s pid),
     ("patient_name", .s pname),
     ("total_medications", .i medications.length),
     ("medication_categories",
       .s (if !categories.isEmpty
           then String.intercalate ", " (pyDedup categories) else "")),
     ("last_updated", .s now)]
  (text, metadata)

/-! ## `_create_vitals_doc` -/

/-- One step of the latest-per-name reduction: first entry for a name is
kept in place; a strictly greater date replaces it. -/
def latestVitalsStep (latest : List (String × ObsItem)) (vital : ObsItem) :
    List (String × ObsItem) :=
  match alFind latest vital.name with
  | none => latest ++ [(vital.name, vital)]
  | some old =>
    if pyStrLt old.date vital.date then alSet latest vital.name vital else latest

/-- Python `max` over a list (first maximal element wins ties). -/
def pyMaxStr : List String → String → String
  | [], cur => cur
  | x :: rest, cur => pyMaxStr rest (if pyStrLt cur x then x else cur)

/-- Stable insertion into a sorted list: the new element goes before the
first element it is `le`-below, hence after earlier equal elements. -/
def insertSorted {α : Type} (le : α → α → Bool) (x : α) : List α → List α
  | [] => [x]
  | y :: ys => if le x y then x :: y :: ys else y :: insertSorted le x ys

/-- Stable sort (for the total preorders used here this result coincides with
Python's stable `sorted`). -/
def pySorted {α : Type} (le : α → α → Bool) (l : List α) : List α :=
  l.foldr (insertSorted le) []

/-- Python `sorted` by a string key. -/
def sortByStrKey {α : Type} (key : α → String) (l : List α) : List α :=
  pySorted (fun a b => pyStrLe (key a) (key b)) l

/-- Python `sorted(..., reverse=True)` by a string key. -/
def sortByStrKeyRev {α : Type} (key : α → String) (l : List α) : List α :=
  pySorted (fun a b => pyStrLe (key b) (key a)) l

/-- The BMI classification fold step (`float` parse is best-effort). -/
def bmiStep (cat : String) (p : String × ObsItem) : String :=
  if strContains (pyLower p.1) "bmi" && p.2.value ≠ "" then
    match (pySplit p.2.value).head? with
    | none => cat
    | some tok =>
      match parseFloatD tok with
      | none => cat
      | some v =>
        if decLe ⟨30, 0⟩ v then "obese"
        else if decLe ⟨25, 0⟩ v then "overweight"
        else if decLt v ⟨185, 1⟩ then "underweight"
        else cat
  else cat

/-- The pain-level fold step (`int` parse is best-effort). -/
def painStep (pl : Int) (p : String × ObsItem) : Int :=
  if strContains (pyLower p.1) "pain" && p.2.value ≠ "" then
    match (pySplit p.2.value).head? with
    | none => pl
    | some tok =>
      match parseIntQ tok with
      | none => pl
      | some v => v
  else pl

def _create_vitals_doc (pid pname now : String) (vitals : List ObsItem) :
    String × Meta :=
  let latest_vitals := vitals.foldl latestVitalsStep []
  let most_recent_date :=
    match latest_vitals.map (fun p => p.2.date) with
    | [] => "Unknown"
    | d :: ds => pyMaxStr ds d
  let sortedItems := sortByStrKey (fun p => p.1) latest_vitals
  let text :=
    "MOST RECENT VITAL SIGNS (" ++ most_recent_date ++ "):\n\n"
    ++ String.join (sortedItems.map (fun p => p.1 ++ ": " ++ p.2.value ++ "\n"))
  let bmi_category := sortedItems.foldl bmiStep "normal"
  let pain_level := sortedItems.foldl painStep 0
  let metadata : Meta :=
    [("document_type", .s "recent_vitals"),
     ("patient_id", .s pid),
     ("patient_name", .s pname),
     ("last_measurement_date", .s most_recent_date),
     ("bmi_category", .s bmi_category),
     ("chronic_pain_present", .b (decide (0 < pain_level))),
     ("pain_level", .i pain_level),
     ("last_updated", .s now)]
  (text, metadata)

/-! ## `_create_labs_doc` -/

/-- Group labs by date, preserving first-seen key order and per-date order. -/
def labsByDateStep (acc : List (String × List ObsItem)) (lab : ObsItem) :
    List (String × List ObsItem) :=
  match alFind acc lab.date with
  | none => acc ++ [(lab.date, [lab])]
  | some ls => alSet acc lab.date (ls ++ [lab])

def _create_labs_doc (pid pname now : String) (labs : List ObsItem) :
    String × Meta :=
  let labs_by_date := labs.foldl labsByDateStep []
  let shown := (sortByStrKeyRev id (labs_by_date.map (fun p => p.1))).take 5
  let text :=
    "RECENT LABORATORY RESULTS:\n\n"
    ++ String.join (shown.map (fun date =>
        "=== " ++ date ++ " ===\n"
        ++ String.join (((alFind labs_by_date date).getD []).map
            (fun lab => lab.name ++ ": " ++ lab.value ++ "\n"))
        ++ "\n"))
  let most_recent_date :=
    match labs_by_date.map (fun p => p.1) with
    | [] => "Unknown"
    | d :: ds => pyMaxStr ds d
  let metadata : Meta :=
    [("document_type", .s "recent_labs"),
     ("patient_id", .s pid),
     ("patient_name", .s pname),
     ("last_lab_date", .s most_recent_date),
     ("total_lab_results", .i labs.length),
     ("last_updated", .s now)]
  (text, metadata)

/-! ## `_create_immunizations_doc` -/

/-- Group immunizations (already sorted) by vaccine name. -/
def vaccinesStep (acc : List (String × List (String × String))) (imm : Resource) :
    List (String × List (String × String)) :=
  let name := _get_codeable_concept_text imm.vaccineCode
  let date := pySlice (imm.occurrenceDateTime.getD "") 10
  let status := imm.status.getD ""
  match alFind acc name with
  | none => acc ++ [(name, [(date, status)])]
  | some ds => alSet acc name (ds ++ [(date, status)])

def _create_immunizations_doc (pid pname now : String)
    (immunizations : List Resource) : String × Meta :=
  let imm_sorted :=
    sortByStrKeyRev (fun x => x.occurrenceDateTime.getD "") immunizations
  let vaccines := imm_sorted.foldl vaccinesStep []
  let names := sortByStrKey id (vaccines.map (fun p => p.1))
  let text :=
    "IMMUNIZATION HISTORY (" ++ toString immunizations.length ++ " Total):\n\n"
    ++ String.join (names.map (fun vname =>
        let dates := (alFind vaccines vname).getD []
        let first := dates.headD ("", "")
        "✓ " ++ vname ++ "\n   Most Recent: " ++ first.1 ++ "\n"
        ++ (if dates.length > 1
            then "   Total Doses: " ++ toString dates.length ++ "\n" else "")
        ++ "   Status: " ++ pyCapitalize first.2 ++ "\n\n"))
  let last_vaccination :=
    match imm_sorted with
    | [] => "Unknown"
    | imm :: _ => pySlice (imm.occurrenceDateTime.getD "") 10
  let metadata : Meta :=
    [("document_type", .s "immunizations"),
     ("patient_id", .s pid),
     ("patient_name", .s pname),
     ("total_immunizations", .i immunizations.length),
     ("unique_vaccines", .i vaccines.length),
     ("last_vaccination_date", .s last_vaccination),
     ("last_updated", .s now)]
  (text, metadata)

/-! ## `_create_procedures_doc` -/

def dentalTerms : List String := ["dental", "gingivae", "plaque", "fluoride"]

def surgicalTerms : List String := ["insertion", "removal", "surgery", "ultrasound", "iud"]

def screeningTerms : List String := ["screening", "assessment", "depression", "anxiety", "abuse"]

/-- Sort key: performedPeriod start, else performedDateTime, else empty. -/
def procDate (x : Resource) : String :=
  match x.performedPeriod with
  | some p => p.start.getD (x.performedDateTime.getD "")
  | none => x.performedDateTime.getD ""

/-- The date shown in the text (no fallback once a period is present). -/
def procLoopDate (x : Resource) : String :=
  match x.performedPeriod with
  | some p => pySlice (p.start.getD "") 10
  | none =>
    match x.performedDateTime with
    | some d => pySlice d 10
    | none => ""

/-- First-match bucket: 0 dental, 1 surgical, 2 screening, 3 other. -/
def procBucket (nameLower : String) : Nat :=
  if dentalTerms.any (fun t2 => strContains nameLower t2) then 0
  else if surgicalTerms.any (fun t2 => strContains nameLower t2) then 1
  else if screeningTerms.any (fun t2 => strContains nameLower t2) then 2
  else 3

def procLine (p : String × String) : String :=
  "- " ++ p.1 ++ " (" ++ p.2 ++ ")\n"

def _create_procedures_doc (pid pname now : String)
    (procedures : List Resource) : String × Meta :=
  let proc_sorted := sortByStrKeyRev (fun x => pySlice (procDate x) 10) procedures
  let datas := proc_sorted.map (fun proc =>
    (_get_codeable_concept_text proc.code, procLoopDate proc))
  let dental := datas.filter (fun p => procBucket (pyLower p.1) == 0)
  let surgical := datas.filter (fun p => procBucket (pyLower p.1) == 1)
  let screening := datas.filter (fun p => procBucket (pyLower p.1) == 2)
  let text :=
    "SURGICAL & MEDICAL PROCEDURE HISTORY (" ++ toString procedures.length
    ++ " Total):\n\n"
    ++ (if !surgical.isEmpty then
          "=== SURGICAL & SIGNIFICANT PROCEDURES ===\n"
          ++ String.join (surgical.map procLine) ++ "\n"
        else "")
    ++ (if !dental.isEmpty then
          "=== DENTAL PROCEDURES ===\n"
          ++ String.join ((dental.take 5).map procLine)
          ++ (if dental.length > 5
              then "  ... and " ++ toString (dental.length - 5)
                   ++ " more dental procedures\n"
              else "")
          ++ "\n"
        else "")
    ++ (if !screening.isEmpty then
          "=== SCREENING & ASSESSMENT PROCEDURES ===\n"
          ++ String.join ((screening.take 10).map procLine)
          ++ (if screening.length > 10
              then "  ... and " ++ toString (screening.length - 10)
                   ++ " more screenings\n"
              else "")
          ++ "\n"
        else "")
  let last_procedure_date :=
    match proc_sorted with
    | [] => "Unknown"
    | p :: _ => pySlice (procDate p) 10
  let metadata : Meta :=
    [("document_type", .s "procedures"),
     ("patient_id", .s pid),
     ("patient_name", .s pname),
     ("total_procedures", .i procedures.length),
     ("surgical_procedures", .i surgical.length),
     ("dental_procedures", .i dental.length),
     ("screening_procedures", .i screening.length),
     ("last_procedure_date", .s last_procedure_date),
     ("last_updated", .s now)]
  (text, metadata)

/-! ## `_create_allergies_doc` -/

/-- The reaction concept: first reaction's first manifestation when the
reaction list is non-empty (IndexError on a present-but-empty manifestation
list), else nothing. -/
def allergyReactionConcept (allergy : Resource) :
    Except String (Option CodeableConcept) :=
  match allergy.reaction with
  | [] => .ok none
  | r :: _ =>
    match r.manifestation with
    | none => .ok none
    | some [] => .error indexErrorMsg
    | some (m :: _) => .ok (some m)

def allergyItem (ia : Nat × Resource) : Except String String := do
  let (i, allergy) := ia
  let substance := _get_codeable_concept_text allergy.code
  let rc ← allergyReactionConcept allergy
  let reaction_text := _get_codeable_concept_text rc
  let severity := allergy.criticality.getD "Unknown"
  pure (toString i ++ ". " ++ substance ++ "\n"
    ++ (if reaction_text ≠ "" then "   Reaction: " ++ reaction_text ++ "\n" else "")
    ++ "   Severity: " ++ pyCapitalize severity ++ "\n\n")

def _create_allergies_doc (pid pname now : String)
    (allergies : List Resource) : Except String (String × Meta) := do
  let items ← mapME allergyItem (enumFrom 1 allergies)
  let text := "ALLERGIES (" ++ toString allergies.length ++ "):\n\n"
    ++ String.join items
  let metadata : Meta :=
    [("document_type", .s "allergies"),
     ("patient_id", .s pid),
     ("patient_name", .s pname),
     ("has_allergies", .b true),
     ("total_allergies", .i allergies.length),
     ("last_updated", .s now)]
  pure (text, metadata)

/-! ## `_create_family_history_doc` -/

def familyHistoryItem (ifh : Nat × Resource) : String :=
  let (i, fh) := ifh
  let relationship := _get_codeable_concept_text fh.relationship
  let fc : Option FamilyCondition :=
    match fh.condition with
    | [] => none
    | c :: _ => some c
  let condition_name := _get_codeable_concept_text (fc.bind (fun c => c.code))
  toString i ++ ". " ++ relationship ++ ": " ++ condition_name ++ "\n"
  ++ (match fc with
      | some c =>
        match c.onsetAge with
        | some oa => "   Onset Age: " ++ oa.value.getD "Unknown" ++ "\n"
        | none => ""
      | none => "")
  ++ "\n"

def _create_family_history_doc (pid pname now : String)
    (family_history : List Resource) : String × Meta :=
  let text :=
    "FAMILY MEDICAL HISTORY (" ++ toString family_history.length ++ " entries):\n\n"
    ++ String.join ((enumFrom 1 family_history).map familyHistoryItem)
  let metadata : Meta :=
    [("document_type", .s "family_history"),
     ("patient_id", .s pid),
     ("patient_name", .s pname),
     ("has_family_history", .b true),
     ("total_entries", .i family_history.length),
     ("last_updated", .s now)]
  (text, metadata)

/-! ## `_create_social_history_doc` -/

/-- Like `condClinicalCode` but with the empty-string default the social builder uses. -/
def condClinicalCodeD (c : Resource) : Except String String :=
  (condClinicalCode c).map (fun oc => oc.getD "")

/-- The alcohol text block (raises like the source when the status coding
list is present but empty). -/
def socialAlcoholPiece (cond : Resource) (name : String) : Except String String :=
  if strContains (pyLower name) "alcohol" then
    (condClinicalCodeD cond).map (fun code =>
      "=== SUBSTANCE USE ===\nAlcohol: " ++ name ++ " ("
      ++ pyCapitalize code ++ ")\n\n")
  else pure ""

/-- The abuse/violence alert block. -/
def socialViolencePiece (cond : Resource) (name : String) : Except String String :=
  if strContains (pyLower name) "abuse" || strContains (pyLower name) "violence" then
    (condClinicalCodeD cond).map (fun code =>
      "⚠️ CRITICAL ALERT: " ++ name ++ "\n   Status: " ++ pyCapitalize code
      ++ "\n   Requires: Safety assessment, counseling referral, social services support\n\n")
  else pure ""

/-- Per-condition contribution to the social-history text: the three
independent keyword blocks plus the (alcohol, violence, employment) flags. -/
def socialCondItem (cond : Resource) : Except String (String × Bool × Bool × Bool) :=
  let name := _get_codeable_concept_text cond.code
  socialAlcoholPiece cond name >>= fun p1 =>
    socialViolencePiece cond name >>= fun p2 =>
      let p3 :=
        if strContains (pyLower name) "employment"
        then "=== EMPLOYMENT ===\n" ++ name ++ "\n\n" else ""
      pure (p1 ++ p2 ++ p3,
        strContains (pyLower name) "alcohol",
        strContains (pyLower name) "abuse" || strContains (pyLower name) "violence",
        strContains (pyLower name) "employment")

def _create_social_history_doc (pid pname now : String)
    (social_obs : List ObsItem) (conditions : List Resource) :
    Except String (String × Meta) := do
  let items ← mapME socialCondItem conditions
  let text :=
    "SOCIAL & LIFESTYLE HISTORY:\n\n"
    ++ String.join (items.map (fun x => x.1))
    ++ (if !social_obs.isEmpty then
          "=== SOCIAL FACTORS ===\n"
          ++ String.join (social_obs.map (fun obs => obs.name ++ ": " ++ obs.value ++ "\n"))
          ++ "\n"
        else "")
  let alcohol_history := items.any (fun x => x.2.1)
  let domestic_violence := items.any (fun x => x.2.2.1)
  let employed := items.any (fun x => x.2.2.2)
  let metadata : Meta :=
    [("document_type", .s "social_history"),
     ("patient_id", .s pid),
     ("patient_name", .s pname),
     ("tobacco_use", .b false),
     ("alcohol_history", .b alcohol_history),
     ("employed", .b employed),
     ("domestic_violence_risk", .b domestic_violence),
     ("requires_social_services", .b domestic_violence),
     ("last_updated", .s now)]
  pure (text, metadata)

/-! ## The orchestrator: `process_fhir_bundle` -/

/-- The two fatal input errors (`ValueError`s in the source). -/
def notBundleMsg : String := "JSON file is not a FHIR Bundle"

def noPatientMsg : String := "No Patient resource found in bundle"

/-- Patient scan (source: first entry whose resourceType equals Patient):
the generator indexes `resource` and `resourceType` directly, so a missing key
at or before the first Patient raises a KeyError. -/
def findPatientResource : List Entry → Except String (Option Resource)
  | [] => .ok none
  | e :: rest =>
    match e.resource with
    | none => .error "KeyError: resource"
    | some r =>
      match r.resourceType with
      | none => .error "KeyError: resourceType"
      | some t =>
        if t = "Patient" then .ok (some r) else findPatientResource rest

/-- Bucket lookup by type: grouping by `resourceType` preserves entry order;
entries without a resource or type tag are skipped at this stage. -/
def bucketOf (entries : List Entry) (t : String) : List Resource :=
  (entries.filterMap (fun e => e.resource)).filter
    (fun r => r.resourceType == some t)

/-- One output unit handed to storage: (document text, metadata, document id). -/
abbrev Triple := String × Meta × String

/-- An unconditionally emitted summary. -/
def emit (pair : String × Meta) (docId : String) : List Triple :=
  [(pair.1, pair.2, docId)]

/-- A summary whose builder may raise. -/
def emitE (mk : Except String (String × Meta)) (docId : String) :
    Except String (List Triple) := do
  let pair ← mk
  pure [(pair.1, pair.2, docId)]

/-- What one successful run returns and hands to storage: the source's result
dict plus the `documents`/`metadatas`/`ids` lists passed to `collection.add`. -/
structure ProcResult where
  collection_name : String
  patient_id : String
  patient_name : String
  total_documents : Nat
  document_types : List String
  documents : List String
  metadatas : List Meta
  deriving Repr, DecidableEq

/-- The sequential construction of the `documents`/`metadatas`/`ids` lists:
the always-emitted summaries followed by the conditional ones, in source
order. -/
def buildParts (now patient_id patient_name : String) (patient_info : Dict)
    (entries : List Entry) : Except String (List Triple) :=
  let conditions := bucketOf entries "Condition"
  let observations := bucketOf entries "Observation"
  let t1 := emit (_create_patient_information_doc patient_id patient_name now
    patient_info) "patient_information"
  emitE (_create_active_conditions_doc patient_id patient_name now
    conditions) "active_conditions" >>= fun t2 =>
  emitE (_create_past_conditions_doc patient_id patient_name now
    conditions) "past_conditions" >>= fun t3 =>
  let current_meds := _get_current_medications (bucketOf entries "Medication")
    (bucketOf entries "MedicationRequest")
  (if current_meds.isEmpty then pure []
   else emitE (_create_current_medications_doc patient_id patient_name now
     current_meds) "current_medications") >>= fun t4 =>
  let past_meds := _get_past_medications (bucketOf entries "MedicationRequest")
  let t5 :=
    if past_meds.isEmpty then []
    else emit (_create_past_medications_doc patient_id patient_name now
      past_meds) "past_medications"
  let vitals := _get_vital_signs observations
  let t6 :=
    if vitals.isEmpty then []
    else emit (_create_vitals_doc patient_id patient_name now vitals)
      "recent_vitals"
  let labs := _get_lab_results observations
  let t7 :=
    if labs.isEmpty then []
    else emit (_create_labs_doc patient_id patient_name now labs) "recent_labs"
  let immunizations := bucketOf entries "Immunization"
  let t8 :=
    if immunizations.isEmpty then []
    else emit (_create_immunizations_doc patient_id patient_name now
      immunizations) "immunizations"
  let procedures := bucketOf entries "Procedure"
  let t9 :=
    if procedures.isEmpty then []
    else emit (_create_procedures_doc patient_id patient_name now procedures)
      "procedures"
  let allergies := bucketOf entries "AllergyIntolerance"
  (if allergies.isEmpty then pure []
   else emitE (_create_allergies_doc patient_id patient_name now
     allergies) "allergies") >>= fun t10 =>
  let family_history := bucketOf entries "FamilyMemberHistory"
  let t11 :=
    if family_history.isEmpty then []
    else emit (_create_family_history_doc patient_id patient_name now
      family_history) "family_history"
  let social_obs := _get_social_history observations
  (if social_obs.isEmpty then pure []
   else emitE (_create_social_history_doc patient_id patient_name now
     social_obs conditions) "social_history") >>= fun t12 =>
  pure (t1 ++ t2 ++ t3 ++ t4 ++ t5 ++ t6 ++ t7 ++ t8 ++ t9 ++ t10 ++ t11 ++ t12)

/-- Source `process_fhir_bundle` (the pure transform: parsing the file and the
ChromaDB round-trips are the external collaborators). -/
def process_fhir_bundle (now : String) (bundle_data : Bundle) :
    Except String ProcResult :=
  if bundle_data.resourceType ≠ some "Bundle" then
    throw notBundleMsg
  else
    let entries := bundle_data.entry
    findPatientResource entries >>= fun patient? =>
    match patient? with
    | none => throw noPatientMsg
    | some pres =>
      match pres.id with
      | none => throw "KeyError: id"
      | some patient_id =>
        let patient_info := extract_patient_info pres
        let patient_name := dictGet patient_info "full_name" "Unknown Patient"
        let collection_name :=
          pyReplaceChar (pyReplaceChar patient_id ':' '-') ' ' '_'
        buildParts now patient_id patient_name patient_info entries >>= fun parts =>
        pure { collection_name := collection_name
               patient_id := patient_id
               patient_name := patient_name
               total_documents := parts.length
               document_types := parts.map (fun x => x.2.2)
               documents := parts.map (fun x => x.1)
               metadatas := parts.map (fun x => x.2.1) }

/-! ## Specification-side predicates and fixtures used by the claims -/

/-- Whether an `Except` computation succeeded. -/
def exceptIsOk {α : Type} : Except String α → Bool
  | .ok _ => true
  | .error _ => false

/-- The entry wraps a resource carrying a type tag (what the patient scan
needs in order not to raise). -/
def entryTyped (e : Entry) : Bool :=
  match e.resource with
  | some r => r.resourceType.isSome
  | none => false

/-- The entry wraps a Patient sub-resource. -/
def wrapsPatient (e : Entry) : Bool :=
  match e.resource with
  | some r => r.resourceType == some "Patient"
  | none => false

/-- The condition's clinical-status extraction does not raise. -/
def condStatusOkB (c : Resource) : Bool := exceptIsOk (condClinicalCode c)

/-- The allergy's reaction extraction does not raise. -/
def allergyOkB (a : Resource) : Bool := exceptIsOk (allergyReactionConcept a)

/-- Total version of the active-condition test (meaningful when
`condStatusOkB`): the first status coding's code is `"active"`. -/
def condActiveB (c : Resource) : Bool :=
  match condClinicalCode c with
  | .ok oc => oc == some "active"
  | .error _ => false

/-- Claim C3's current-medication condition on a MedicationRequest: status
active/completed and authored-on empty or with year ≥ 2023 (the year compare
is the source's 4-character string compare). -/
def specIsCurrentRequest (r : Resource) : Bool :=
  (r.status.getD "" == "active" || r.status.getD "" == "completed")
  && (r.authoredOn.getD "" == "" || pyStrLe "2023" (pySlice (r.authoredOn.getD "") 4))

/-- Claim C3's past-medication condition: non-empty authored-on with year < 2023. -/
def specIsPastRequest (r : Resource) : Bool :=
  r.authoredOn.getD "" != "" && pyStrLt (pySlice (r.authoredOn.getD "") 4) "2023"

/-- The current-medication item a Medication resource yields. -/
def currentFromMedication (med : Resource) : MedItem :=
  { name := _get_codeable_concept_text med.code
    code := _get_codeable_concept_code med.code
    mtype := some "current"
    id := med.id }

/-- The current-medication item a qualifying MedicationRequest yields. -/
def currentFromRequest (req : Resource) : MedItem :=
  { name := _get_codeable_concept_text req.medicationCodeableConcept
    code := _get_codeable_concept_code req.medicationCodeableConcept
    mtype := some "prescription"
    status := some (req.status.getD "")
    date := some (if req.authoredOn.getD "" ≠ ""
                  then pySlice (req.authoredOn.getD "") 10 else "")
    dosage := some (dosageText req)
    id := req.id }

/-- The past-medication item a qualifying MedicationRequest yields. -/
def pastFromRequest (req : Resource) : MedItem :=
  { name := _get_codeable_concept_text req.medicationCodeableConcept
    code := _get_codeable_concept_code req.medicationCodeableConcept
    date := some (pySlice (req.authoredOn.getD "") 10)
    status := some (req.status.getD "")
    id := req.id }

/-- A past condition qualifies for notable history: some fixed keyword occurs
somewhere in the whole lowercased name. -/
def specNotableName (name : String) : Bool :=
  notableKeywords.any (fun kw => strContains (pyLower name) kw)

/-- What a qualifying condition contributes: the first word of the lowercased
name. -/
def firstWordLower (name : String) : String :=
  (pySplit (pyLower name)).headD ""

/-- The notable-history words collected over a past-conditions list. -/
def notableWordsOf (pastL : List Resource) : List String :=
  pastL.filterMap (fun c =>
    if specNotableName (condName c).1 then some (firstWordLower (condName c).1)
    else none)

/-- Drop the wall-clock field from a metadata record. -/
def scrubMeta (m : Meta) : Meta :=
  m.filter (fun kv => kv.1 != "last_updated")

/-- Drop the wall-clock field from one (text, metadata) pair. -/
def scrubPair (p : String × Meta) : String × Meta := (p.1, scrubMeta p.2)

/-- Drop the wall-clock field from one output triple. -/
def scrubTriple (x : Triple) : Triple := (x.1, scrubMeta x.2.1, x.2.2)

/-- Drop the wall-clock fields from an emission-chain result. -/
def scrubParts (l : List Triple) : List Triple := l.map scrubTriple

/-- Drop the wall-clock fields from a run result. -/
def scrubResult (r : ProcResult) : ProcResult :=
  { r with metadatas := r.metadatas.map scrubMeta }

/-! ### Concrete fixtures -/

/-- A bare Patient resource carrying only a type tag and an id. -/
def patientA : Resource := { resourceType := some "Patient", id := some "pa:1 x" }

/-- A bundle holding exactly the Patient `patientA`. -/
def bundleA : Bundle :=
  { resourceType := some "Bundle", entry := [{ resource := some patientA }] }

/-- A Patient resource without an id. -/
def patientNoId : Resource := { resourceType := some "Patient" }

/-- A Bundle-typed bundle whose sole sub-resource is a Patient without id. -/
def bundleNoId : Bundle :=
  { resourceType := some "Bundle", entry := [{ resource := some patientNoId }] }

/-- A Bundle-typed bundle with a resource-less entry before its Patient. -/
def bundleBareEntry : Bundle :=
  { resourceType := some "Bundle",
    entry := [{ resource := none }, { resource := some patientA }] }

/-- A root object that is not tagged as a Bundle. -/
def bundleWrongType : Bundle :=
  { resourceType := some "Claim", entry := [{ resource := some patientA }] }

/-- An active Condition named "Chronic pain". -/
def condActiveFx : Resource :=
  { resourceType := some "Condition",
    clinicalStatus := some { coding := some [{ code := some "active" }] },
    code := some { text := some "Chronic pain" } }

/-- A resolved Condition named "History of cancer": the notable-history
keyword `cancer` occurs in the name but not in its first word. -/
def condCancerFx : Resource :=
  { resourceType := some "Condition",
    clinicalStatus := some { coding := some [{ code := some "resolved" }] },
    code := some { text := some "History of cancer" } }

/-- A Condition with a present-but-empty clinical-status coding list. -/
def condEmptyCodingFx : Resource :=
  { resourceType := some "Condition",
    clinicalStatus := some { coding := some [] },
    code := some { text := some "Fracture of wrist" } }

/-- The earlier, higher BMI vital entry of claim C5. -/
def bmiJanFx : ObsItem :=
  { name := "Body mass index (BMI)", value := "32 kg/m2", date := "2024-01-01" }

/-- The later, lower BMI vital entry of claim C5. -/
def bmiJunFx : ObsItem :=
  { name := "Body mass index (BMI)", value := "24 kg/m2", date := "2024-06-01" }

/-- A Bundle-typed bundle with entries but no Patient sub-resource. -/
def bundleNoPatient : Bundle :=
  { resourceType := some "Bundle", entry := [{ resource := some condActiveFx }] }

/-- A MedicationRequest with status `active` and empty authored-on. -/
def reqActiveEmptyFx : Resource :=
  { resourceType := some "MedicationRequest", status := some "active",
    authoredOn := some "" }

/-! # Lemmas and claim theorems -/

theorem ebind_ok {α β : Type} (a : α) (f : α → Except String β) :
    (Except.ok a >>= f) = f a := rfl

theorem ebind_error {α β : Type} (e : String) (f : α → Except String β) :
    ((Except.error e : Except String α) >>= f) = Except.error e := rfl

theorem emap_ok {α β : Type} (a : α) (f : α → β) :
    (Except.ok a : Except String α).map f = Except.ok (f a) := rfl

theorem emap_error {α β : Type} (e : String) (f : α → β) :
    (Except.error e : Except String α).map f = Except.error e := rfl

theorem ebind_eq_ok {α β : Type} {x : Except String α} {f : α → Except String β}
    {b : β} : x >>= f = .ok b ↔ ∃ a, x = .ok a ∧ f a = .ok b := by
  cases x with
  | ok a => simp [ebind_ok]
  | error e => simp [ebind_error]

theorem alFind_alSet_self {α : Type} (d : List (String × α)) (k : String) (v : α) :
    alFind (alSet d k v) k = some v := by
  induction d with
  | nil => simp [alSet, alFind]
  | cons hd tl ih =>
    obtain ⟨k3, v3⟩ := hd
    by_cases hk : k3 = k
    · simp [alSet, alFind, hk]
    · simp [alSet, alFind, hk, ih]

theorem alFind_alSet_ne {α : Type} (d : List (String × α)) (k k2 : String) (v : α)
    (h : k ≠ k2) : alFind (alSet d k v) k2 = alFind d k2 := by
  induction d with
  | nil => simp [alSet, alFind, h]
  | cons hd tl ih =>
    obtain ⟨k3, v3⟩ := hd
    by_cases hk : k3 = k
    · simp [alSet, alFind, hk, h]
    · simp [alSet, alFind, hk, ih]

/-! ## Claim C9: the patient extractor never writes `full_address` -/

theorem telecomStep_no_key (acc : Dict) (t : ContactPoint) (k : String)
    (hp : k ≠ "phone") (he : k ≠ "email") (h : alFind acc k = none) :
    alFind (telecomStep acc t) k = none := by
  unfold telecomStep
  by_cases h1 : t.system.getD "" = "phone"
  · simpa [h1, dictSet, alFind_alSet_ne _ _ _ _ (fun hh => hp hh.symm)] using h
  · by_cases h2 : t.system.getD "" = "email"
    · simpa [h1, h2, dictSet,
        alFind_alSet_ne _ _ _ _ (fun hh => he hh.symm)] using h
    · simpa [h1, h2] using h

theorem telecomFold_no_key (ts : List ContactPoint) (acc : Dict) (k : String)
    (hp : k ≠ "phone") (he : k ≠ "email") (h : alFind acc k = none) :
    alFind (ts.foldl telecomStep acc) k = none := by
  induction ts generalizing acc with
  | nil => simpa using h
  | cons t rest ih =>
    exact ih (telecomStep acc t) (telecomStep_no_key acc t k hp he h)

theorem subExtStep_no_key (key : String) (acc : Dict) (se : SubExtension)
    (k : String) (hk : key ≠ k) (h : alFind acc k = none) :
    alFind (subExtStep key acc se) k = none := by
  unfold subExtStep
  by_cases h1 : se.url = some "text"
  · simpa [h1, dictSet, alFind_alSet_ne _ _ _ _ hk] using h
  · simpa [h1] using h

theorem subExtFold_no_key (key : String) (ses : List SubExtension) (acc : Dict)
    (k : String) (hk : key ≠ k) (h : alFind acc k = none) :
    alFind (ses.foldl (subExtStep key) acc) k = none := by
  induction ses generalizing acc with
  | nil => simpa using h
  | cons se rest ih =>
    exact ih (subExtStep key acc se) (subExtStep_no_key key acc se k hk h)

theorem extensionStep_no_key (acc : Dict) (ext : PExtension) (k : String)
    (hr : k ≠ "race") (he : k ≠ "ethnicity") (h : alFind acc k = none) :
    alFind (extensionStep acc ext) k = none := by
  unfold extensionStep
  by_cases h1 : strContains (ext.url.getD "") "us-core-race" = true
  · simpa [h1] using
      subExtFold_no_key "race" ext.subext acc k (fun hh => hr hh.symm) h
  · by_cases h2 : strContains (ext.url.getD "") "us-core-ethnicity" = true
    · simpa [h1, h2] using
        subExtFold_no_key "ethnicity" ext.subext acc k (fun hh => he hh.symm) h
    · simpa [h1, h2] using h

theorem extensionFold_no_key (exts : List PExtension) (acc : Dict) (k : String)
    (hr : k ≠ "race") (he : k ≠ "ethnicity") (h : alFind acc k = none) :
    alFind (exts.foldl extensionStep acc) k = none := by
  induction exts generalizing acc with
  | nil => simpa using h
  | cons ext rest ih =>
    exact ih (extensionStep acc ext) (extensionStep_no_key acc ext k hr he h)

theorem nameBlock_no_fa (p : Resource) (d : Dict)
    (h : alFind d "full_address" = none) :
    alFind (nameBlock p d) "full_address" = none := by
  unfold nameBlock
  cases p.name with
  | nil => simpa using h
  | cons n rest =>
    simpa [dictSet, alFind_alSet_ne _ _ _ _ (by decide : "full_name" ≠ "full_address"),
      alFind_alSet_ne _ _ _ _ (by decide : "prefix" ≠ "full_address"),
      alFind_alSet_ne _ _ _ _ (by decide : "given_names" ≠ "full_address"),
      alFind_alSet_ne _ _ _ _ (by decide : "family_name" ≠ "full_address")] using h

theorem addressBlock_no_fa (p : Resource) (d : Dict)
    (h : alFind d "full_address" = none) :
    alFind (addressBlock p d) "full_address" = none := by
  unfold addressBlock
  cases p.address with
  | nil => simpa using h
  | cons a rest =>
    simpa [dictSet, alFind_alSet_ne _ _ _ _ (by decide : "country" ≠ "full_address"),
      alFind_alSet_ne _ _ _ _ (by decide : "postal_code" ≠ "full_address"),
      alFind_alSet_ne _ _ _ _ (by decide : "state" ≠ "full_address"),
      alFind_alSet_ne _ _ _ _ (by decide : "city" ≠ "full_address"),
      alFind_alSet_ne _ _ _ _ (by decide : "address_line" ≠ "full_address")] using h

theorem maritalBlock_no_fa (p : Resource) (d : Dict)
    (h : alFind d "full_address" = none) :
    alFind (maritalBlock p d) "full_address" = none := by
  unfold maritalBlock
  split
  · exact h
  · split
    · simpa [dictSet,
        alFind_alSet_ne _ _ _ _ (by decide : "marital_status" ≠ "full_address")] using h
    · split
      · simpa [dictSet,
          alFind_alSet_ne _ _ _ _ (by decide : "marital_status" ≠ "full_address")] using h
      · exact h

theorem multipleBirthBlock_no_fa (p : Resource) (d : Dict)
    (h : alFind d "full_address" = none) :
    alFind (multipleBirthBlock p d) "full_address" = none := by
  unfold multipleBirthBlock
  cases p.multipleBirthBoolean with
  | none => simpa using h
  | some bv =>
    simpa [dictSet,
      alFind_alSet_ne _ _ _ _ (by decide : "multiple_birth" ≠ "full_address")] using h

theorem extract_patient_info_no_fa (p : Resource) :
    alFind (extract_patient_info p) "full_address" = none := by
  unfold extract_patient_info
  apply extensionFold_no_key _ _ _ (by decide) (by decide)
  apply multipleBirthBlock_no_fa
  apply maritalBlock_no_fa
  apply telecomFold_no_key _ _ _ (by decide) (by decide)
  apply addressBlock_no_fa
  rw [dictSet_def, alFind_alSet_ne _ _ _ _ (by decide : "birth_date" ≠ "full_address")]
  rw [dictSet_def, alFind_alSet_ne _ _ _ _ (by decide : "gender" ≠ "full_address")]
  apply nameBlock_no_fa
  simp [alFind]

/-- Claim C9: the patient-information document reads a `full_address` key the
patient extractor never writes, so its Address line is always the literal
`"Not documented"` (the extracted address-line/city/state/postal/country
fields never reach the document). -/
theorem claim_C9 (p : Resource) :
    alFind (extract_patient_info p) "full_address" = none ∧
    patientAddressLine (extract_patient_info p) = "Address: Not documented\n" := by
  have h := extract_patient_info_no_fa p
  exact ⟨h, by simp [patientAddressLine, dictGet, h]⟩

/-! ## Claim C3: medication partitioning -/

theorem filterMap_eq_filter_map {α β : Type} (p : α → Bool) (f : α → β)
    (g : α → Option β) (hg : ∀ a, g a = if p a then some (f a) else none) :
    ∀ l : List α, l.filterMap g = (l.filter p).map f := by
  intro l
  induction l with
  | nil => simp
  | cons x rest ih =>
    by_cases hx : p x = true
    · simp [List.filterMap_cons, List.filter_cons, hg, hx, ih]
    · simp [List.filterMap_cons, List.filter_cons, hg, hx, ih]

theorem currentRequestBody_eq (r : Resource) :
    (let status := r.status.getD ""
     if status = "active" || status = "completed" then
       let authored := r.authoredOn.getD ""
       if authored = "" || pyStrLe "2023" (pySlice authored 4) then
         some { name := _get_codeable_concept_text r.medicationCodeableConcept
                code := _get_codeable_concept_code r.medicationCodeableConcept
                mtype := some "prescription"
                status := some status
                date := some (if authored ≠ "" then pySlice authored 10 else "")
                dosage := some (dosageText r)
                id := r.id }
       else none
     else none)
    = if specIsCurrentRequest r then some (currentFromRequest r) else none := by
  by_cases h1 : r.status.getD "" = "active" <;>
    by_cases h2 : r.status.getD "" = "completed" <;>
      by_cases h3 : r.authoredOn.getD "" = "" <;>
        by_cases h4 : pyStrLe "2023" (pySlice (r.authoredOn.getD "") 4) = true <;>
          simp [specIsCurrentRequest, currentFromRequest, h1, h2, h3, h4]

theorem pastRequestBody_eq (r : Resource) :
    (let status := r.status.getD ""
     let authored := r.authoredOn.getD ""
     if authored ≠ "" && pyStrLt (pySlice authored 4) "2023" then
       some { name := _get_codeable_concept_text r.medicationCodeableConcept
              code := _get_codeable_concept_code r.medicationCodeableConcept
              date := some (pySlice authored 10)
              status := some status
              id := r.id }
     else none)
    = if specIsPastRequest r then some (pastFromRequest r) else none := by
  by_cases h3 : r.authoredOn.getD "" = "" <;>
    by_cases h4 : pyStrLt (pySlice (r.authoredOn.getD "") 4) "2023" = true <;>
      simp [specIsPastRequest, pastFromRequest, h3, h4]

/-- Claim C3: a resource is classified as a current medication iff it is a
Medication resource or a MedicationRequest with status active/completed whose
authored-on is empty or has year ≥ 2023; it is classified past iff it is a
MedicationRequest with non-empty authored-on of year < 2023; in particular an
active request with empty authored-on is current and never past. -/
theorem claim_C3 (medications medication_requests : List Resource) :
    _get_current_medications medications medication_requests
      = medications.map currentFromMedication
        ++ (medication_requests.filter specIsCurrentRequest).map currentFromRequest ∧
    _get_past_medications medication_requests
      = (medication_requests.filter specIsPastRequest).map pastFromRequest ∧
    (∀ r : Resource, r.status = some "active" → r.authoredOn = some "" →
      specIsCurrentRequest r = true ∧ specIsPastRequest r = false) := by
  refine ⟨?_, ?_, ?_⟩
  · unfold _get_current_medications
    rw [filterMap_eq_filter_map specIsCurrentRequest currentFromRequest _
      (fun r => currentRequestBody_eq r)]
    rfl
  · unfold _get_past_medications
    rw [filterMap_eq_filter_map specIsPastRequest pastFromRequest _
      (fun r => pastRequestBody_eq r)]
  · intro r hs ha
    constructor
    · simp [specIsCurrentRequest, hs, ha]
    · simp [specIsPastRequest, ha]

theorem claim_C3_witness :
    specIsCurrentRequest reqActiveEmptyFx = true ∧
    specIsPastRequest reqActiveEmptyFx = false ∧
    _get_current_medications [] [reqActiveEmptyFx]
      = [currentFromRequest reqActiveEmptyFx] ∧
    _get_past_medications [reqActiveEmptyFx] = [] := by
  refine ⟨((claim_C3 [] [reqActiveEmptyFx]).2.2 reqActiveEmptyFx rfl rfl).1,
    ((claim_C3 [] [reqActiveEmptyFx]).2.2 reqActiveEmptyFx rfl rfl).2, ?_, ?_⟩
  · rw [(claim_C3 [] [reqActiveEmptyFx]).1]
    decide
  · rw [(claim_C3 [] [reqActiveEmptyFx]).2.1]
    decide

/-! ## Containment / split infrastructure -/

theorem listHasInfix_subset {nee hay : List Char}
    (h : listHasInfix nee hay = true) : ∀ c ∈ nee, c ∈ hay := by
  induction hay with
  | nil =>
    intro c hc
    simp [listHasInfix, List.isEmpty_iff] at h
    simp [h] at hc
  | cons x rest ih =>
    intro c hc
    simp only [listHasInfix, Bool.or_eq_true] at h
    rcases h with h | h
    · rw [List.isPrefixOf_iff_prefix] at h
      exact h.subset hc
    · exact List.mem_cons_of_mem x (ih h c hc)

theorem strContains_subset {hay nee : String}
    (h : strContains hay nee = true) : ∀ c ∈ nee.data, c ∈ hay.data :=
  listHasInfix_subset h

theorem wordsAux_ne_nil : ∀ (l cur : List Char),
    (cur ≠ [] ∨ ∃ c ∈ l, c.isWhitespace = false) → wordsAux cur l ≠ [] := by
  intro l
  induction l with
  | nil =>
    intro cur h
    rcases h with h | ⟨c, hc, _⟩
    · simp [wordsAux, List.isEmpty_iff, h]
    · simp at hc
  | cons x rest ih =>
    intro cur h
    by_cases hx : x.isWhitespace = true
    · by_cases hcur : cur = []
      · subst hcur
        simp only [wordsAux, hx, if_true, List.isEmpty_nil]
        apply ih
        right
        rcases h with h | ⟨c, hc, hcw⟩
        · exact absurd rfl h
        · rcases List.mem_cons.1 hc with rfl | hmem
          · rw [hx] at hcw; cases hcw
          · exact ⟨c, hmem, hcw⟩
      · have : cur.isEmpty = false := by simpa [List.isEmpty_iff] using hcur
        simp [wordsAux, hx, this]
    · have hxf : x.isWhitespace = false := by simpa using hx
      simp only [wordsAux, hxf, Bool.false_eq_true, if_false]
      exact ih (x :: cur) (Or.inl (by simp))

theorem pySplit_ne_nil {s : String} (h : ∃ c ∈ s.data, c.isWhitespace = false) :
    pySplit s ≠ [] := by
  unfold pySplit
  simp only [ne_eq, List.map_eq_nil_iff]
  exact wordsAux_ne_nil s.data [] (Or.inr h)

theorem toLower_ws {c : Char} (h : c.isWhitespace = true) :
    (Char.toLower c).isWhitespace = true := by
  have : c = ' ' ∨ c = '\t' ∨ c = '\r' ∨ c = '\n' := by
    simp [Char.isWhitespace] at h
    tauto
  rcases this with rfl | rfl | rfl | rfl <;> decide

theorem toLower_nonws {c : Char} (h : (Char.toLower c).isWhitespace = false) :
    c.isWhitespace = false := by
  by_cases hc : c.isWhitespace = true
  · rw [toLower_ws hc] at h; cases h
  · simpa using hc

/-- If some keyword with a non-whitespace character occurs in the lowered
name, the lowered name has a non-whitespace character. -/
theorem lowerName_has_nonws {name kw : String}
    (hkw : ∃ c ∈ kw.data, c.isWhitespace = false)
    (h : strContains (pyLower name) kw = true) :
    ∃ c ∈ (pyLower name).data, c.isWhitespace = false := by
  obtain ⟨c, hc, hcw⟩ := hkw
  exact ⟨c, strContains_subset h c hc, hcw⟩

/-- And then the raw name has one too. -/
theorem name_has_nonws {name kw : String}
    (hkw : ∃ c ∈ kw.data, c.isWhitespace = false)
    (h : strContains (pyLower name) kw = true) :
    ∃ c ∈ name.data, c.isWhitespace = false := by
  obtain ⟨c, hc, hcw⟩ := lowerName_has_nonws hkw h
  unfold pyLower at hc
  simp only [List.mem_map] at hc
  obtain ⟨c0, hc0, rfl⟩ := hc
  exact ⟨c0, hc0, toLower_nonws hcw⟩

theorem notableKeywords_nonws :
    ∀ kw ∈ notableKeywords, ∃ c ∈ kw.data, c.isWhitespace = false := by decide

theorem controlledDrugs_nonws :
    ∀ kw ∈ controlledDrugs, ∃ c ∈ kw.data, c.isWhitespace = false := by decide

theorem exceptIsOk_exists {α : Type} {x : Except String α}
    (h : exceptIsOk x = true) : ∃ y, x = .ok y := by
  cases x with
  | ok a => exact ⟨a, rfl⟩
  | error e => simp [exceptIsOk] at h

theorem epure {α : Type} (a : α) : (pure a : Except String α) = .ok a := rfl

/-- The past-conditions per-item rendering never raises: its guarded
`split()[0]` is reachable only when a keyword occurs in the lowered name. -/
theorem pastCondItem_ok (ic : Nat × Resource) :
    exceptIsOk (pastCondItem ic) = true := by
  obtain ⟨i, c⟩ := ic
  unfold pastCondItem
  by_cases hany :
      (notableKeywords.any fun kw => strContains (pyLower (condName c).1) kw) = true
  · obtain ⟨kw, hkw, hcont⟩ := List.any_eq_true.1 hany
    have hne : pySplit (pyLower (condName c).1) ≠ [] :=
      pySplit_ne_nil (lowerName_has_nonws (notableKeywords_nonws kw hkw) hcont)
    cases hsp : pySplit (pyLower (condName c).1) with
    | nil => exact absurd hsp hne
    | cons w ws => simp [hany, hsp, exceptIsOk]
  · simp [hany, exceptIsOk]

/-- The current-medications per-item rendering never raises. -/
theorem currentMedItem_ok (im : Nat × MedItem) :
    exceptIsOk (currentMedItem im) = true := by
  obtain ⟨i, med⟩ := im
  unfold currentMedItem
  by_cases hany :
      (controlledDrugs.any fun d => strContains (pyLower med.name) d) = true
  · obtain ⟨kw, hkw, hcont⟩ := List.any_eq_true.1 hany
    have hne : pySplit med.name ≠ [] :=
      pySplit_ne_nil (name_has_nonws (controlledDrugs_nonws kw hkw) hcont)
    cases hsp : pySplit med.name with
    | nil => exact absurd hsp hne
    | cons w ws => simp [hany, hsp, exceptIsOk]
  · simp [hany, exceptIsOk]

/-! ## `exceptFilter` / `mapME` lemmas -/

theorem exceptFilter_eq {α : Type} (p : α → Except String Bool) (q : α → Bool)
    (l : List α) (h : ∀ x ∈ l, p x = .ok (q x)) :
    exceptFilter p l = .ok (l.filter q) := by
  induction l with
  | nil => rfl
  | cons x rest ih =>
    have hx := h x (List.mem_cons_self x rest)
    have hrest := ih (fun y hy => h y (List.mem_cons_of_mem x hy))
    by_cases hq : q x = true <;>
      simp [exceptFilter, hx, hrest, ebind_ok, epure, List.filter_cons, hq]

theorem mapME_eq {α β : Type} (f : α → Except String β) (g : α → β)
    (l : List α) (h : ∀ x ∈ l, f x = .ok (g x)) :
    mapME f l = .ok (l.map g) := by
  induction l with
  | nil => rfl
  | cons x rest ih =>
    have hx := h x (List.mem_cons_self x rest)
    have hrest := ih (fun y hy => h y (List.mem_cons_of_mem x hy))
    simp [mapME, hx, hrest, ebind_ok, epure]

theorem mapME_ok {α β : Type} (f : α → Except String β) (l : List α)
    (h : ∀ x ∈ l, ∃ y, f x = .ok y) : ∃ ys, mapME f l = .ok ys := by
  induction l with
  | nil => exact ⟨[], rfl⟩
  | cons x rest ih =>
    obtain ⟨y, hy⟩ := h x (List.mem_cons_self x rest)
    obtain ⟨ys, hys⟩ := ih (fun z hz => h z (List.mem_cons_of_mem x hz))
    exact ⟨y :: ys, by simp [mapME, hy, hys, ebind_ok, epure]⟩

/-- Under `condStatusOkB`, the active-filter predicate computes `condActiveB`. -/
theorem activePred_eq {c : Resource} (h : condStatusOkB c = true) :
    (condClinicalCode c).map (fun oc => oc == some "active") = .ok (condActiveB c) := by
  unfold condStatusOkB exceptIsOk at h
  cases hc : condClinicalCode c with
  | ok oc => simp [emap_ok, condActiveB, hc]
  | error e => rw [hc] at h; cases h

/-- Under `condStatusOkB`, the past-filter predicate computes `!condActiveB`. -/
theorem pastPred_eq {c : Resource} (h : condStatusOkB c = true) :
    (condClinicalCode c).map (fun oc => !(oc == some "active"))
      = .ok (!condActiveB c) := by
  unfold condStatusOkB exceptIsOk at h
  cases hc : condClinicalCode c with
  | ok oc => simp [emap_ok, condActiveB, hc]
  | error e => rw [hc] at h; cases h

/-! ## Claim C4: the active/past condition partition -/

theorem active_doc_result (pid pname now : String) (conditions : List Resource)
    (h : ∀ c ∈ conditions, condStatusOkB c = true) :
    ∃ t m, _create_active_conditions_doc pid pname now conditions = .ok (t, m) ∧
      metaFind m "total_conditions"
        = some (.i (conditions.filter condActiveB).length) := by
  unfold _create_active_conditions_doc
  rw [exceptFilter_eq _ condActiveB conditions (fun c hc => activePred_eq (h c hc))]
  simp only [ebind_ok, epure]
  refine ⟨_, _, rfl, ?_⟩
  simp [metaFind, alFind]

theorem past_doc_result (pid pname now : String) (conditions : List Resource)
    (h : ∀ c ∈ conditions, condStatusOkB c = true) :
    ∃ t m, _create_past_conditions_doc pid pname now conditions = .ok (t, m) ∧
      metaFind m "total_conditions"
        = some (.i (conditions.filter (fun c => !condActiveB c)).length) := by
  unfold _create_past_conditions_doc
  rw [exceptFilter_eq _ (fun c => !condActiveB c) conditions
    (fun c hc => pastPred_eq (h c hc))]
  obtain ⟨items, hitems⟩ := mapME_ok pastCondItem
    (enumFrom 1 (conditions.filter (fun c => !condActiveB c)))
    (fun ic _ => exceptIsOk_exists (pastCondItem_ok ic))
  simp only [ebind_ok, hitems, epure]
  refine ⟨_, _, rfl, ?_⟩
  simp [metaFind, alFind]

theorem length_filter_add_length_filter_not {α : Type} (p : α → Bool)
    (l : List α) :
    (l.filter p).length + (l.filter (fun x => !p x)).length = l.length := by
  induction l with
  | nil => rfl
  | cons x rest ih =>
    by_cases hx : p x = true <;> simp [List.filter_cons, hx] <;> omega

/-- Claim C4 (amended: provided no condition carries a present-but-empty
clinical-status coding list, which instead aborts both builders with an
IndexError — see the counterexample): each condition lands in the active list
iff the first coded entry of its clinical-status concept is `"active"`, in the
past list otherwise; the two summary counts sum to the bucket size and no
entry is in both. -/
theorem claim_C4 (pid pname now : String) (conditions : List Resource)
    (h : ∀ c ∈ conditions, condStatusOkB c = true) :
    (∃ t m, _create_active_conditions_doc pid pname now conditions = .ok (t, m) ∧
      metaFind m "total_conditions"
        = some (.i (conditions.filter condActiveB).length)) ∧
    (∃ t m, _create_past_conditions_doc pid pname now conditions = .ok (t, m) ∧
      metaFind m "total_conditions"
        = some (.i (conditions.filter (fun c => !condActiveB c)).length)) ∧
    (conditions.filter condActiveB).length
      + (conditions.filter (fun c => !condActiveB c)).length
      = conditions.length ∧
    (∀ c ∈ conditions,
      (c ∈ conditions.filter condActiveB ↔ condActiveB c = true) ∧
      (c ∈ conditions.filter (fun c => !condActiveB c) ↔ condActiveB c = false)) ∧
    (∀ c : Resource, ¬ (c ∈ conditions.filter condActiveB ∧
      c ∈ conditions.filter (fun c => !condActiveB c))) := by
  refine ⟨active_doc_result pid pname now conditions h,
    past_doc_result pid pname now conditions h,
    length_filter_add_length_filter_not condActiveB conditions, ?_, ?_⟩
  · intro c hc
    constructor
    · simp [List.mem_filter, hc]
    · simp [List.mem_filter, hc]
  · intro c hcc
    obtain ⟨h1, h2⟩ := hcc
    rw [List.mem_filter] at h1 h2
    rw [h1.2] at h2
    simpa using h2.2

/-- The claim as frozen is false on a condition whose clinical-status carries
a present-but-empty coding list: both condition builders abort with an
IndexError, so the entry appears in neither summary. -/
theorem claim_C4_counterexample :
    condStatusOkB condEmptyCodingFx = false ∧
    _create_active_conditions_doc "p" "n" "d" [condEmptyCodingFx]
      = .error indexErrorMsg ∧
    _create_past_conditions_doc "p" "n" "d" [condEmptyCodingFx]
      = .error indexErrorMsg := by
  exact ⟨by decide, rfl, rfl⟩

theorem claim_C4_witness :
    (∃ t m, _create_active_conditions_doc "p" "n" "d" [condActiveFx, condCancerFx]
        = .ok (t, m) ∧ metaFind m "total_conditions" = some (.i 1)) ∧
    (∃ t m, _create_past_conditions_doc "p" "n" "d" [condActiveFx, condCancerFx]
        = .ok (t, m) ∧ metaFind m "total_conditions" = some (.i 1)) ∧
    condCancerFx ∉ [condActiveFx, condCancerFx].filter condActiveB ∧
    condCancerFx ∈ [condActiveFx, condCancerFx].filter (fun c => !condActiveB c) := by
  have h := claim_C4 "p" "n" "d" [condActiveFx, condCancerFx] (by decide)
  obtain ⟨⟨t1, m1, hok1, hm1⟩, ⟨t2, m2, hok2, hm2⟩, _, hmem, _⟩ := h
  refine ⟨⟨t1, m1, hok1, hm1.trans (by decide)⟩,
    ⟨t2, m2, hok2, hm2.trans (by decide)⟩, ?_, ?_⟩
  · rw [(hmem condCancerFx (by decide)).1]
    decide
  · rw [(hmem condCancerFx (by decide)).2]
    decide

/-! ## Claim C7: notable-history collection while rendering past conditions -/

theorem mem_pyDedup {a : String} : ∀ {l : List String}, a ∈ pyDedup l ↔ a ∈ l := by
  intro l
  induction l with
  | nil => simp [pyDedup]
  | cons x rest ih =>
    by_cases hx : x ∈ rest
    · simp only [pyDedup, hx, if_true]
      rw [ih]
      constructor
      · exact fun h => List.mem_cons_of_mem x h
      · intro h
        rcases List.mem_cons.1 h with rfl | h
        · exact hx
        · exact h
    · simp only [pyDedup, hx, if_false, List.mem_cons, ih]

theorem pyDedup_nodup : ∀ l : List String, (pyDedup l).Nodup := by
  intro l
  induction l with
  | nil => simp [pyDedup]
  | cons x rest ih =>
    by_cases hx : x ∈ rest
    · simpa [pyDedup, hx] using ih
    · simp only [pyDedup, hx, if_false]
      exact List.nodup_cons.2 ⟨fun hmem => hx (mem_pyDedup.1 hmem), ih⟩

/-- What the per-item rendering contributes to `notable_history`. -/
theorem pastCondItem_snd {ic : Nat × Resource} {v : String × List String}
    (h : pastCondItem ic = .ok v) :
    v.2 = if specNotableName (condName ic.2).1
          then [firstWordLower (condName ic.2).1] else [] := by
  obtain ⟨i, c⟩ := ic
  unfold pastCondItem at h
  by_cases hany :
      (notableKeywords.any fun kw => strContains (pyLower (condName c).1) kw) = true
  · cases hsp : pySplit (pyLower (condName c).1) with
    | nil => simp [hany, hsp] at h
    | cons w ws =>
      simp only [hany, if_true, hsp] at h
      cases h
      simp [specNotableName, hany, firstWordLower, hsp]
  · simp only [hany] at h
    simp only [Bool.false_eq_true, if_false] at h
    cases h
    simp [specNotableName, hany]

theorem mapME_map {α β γ : Type} (f : α → Except String β) (g : β → γ)
    (hf : α → γ) (hfg : ∀ x y, f x = .ok y → g y = hf x) :
    ∀ (l : List α) (items : List β), mapME f l = .ok items →
      items.map g = l.map hf := by
  intro l
  induction l with
  | nil =>
    intro items h0
    simp only [mapME] at h0
    cases h0
    rfl
  | cons x rest ih =>
    intro items h0
    simp only [mapME] at h0
    rcases ebind_eq_ok.1 h0 with ⟨y, hy, h1⟩
    rcases ebind_eq_ok.1 h1 with ⟨ys, hys, h2⟩
    rw [epure] at h2
    cases h2
    simp [hfg x y hy, ih ys hys]

theorem notable_flatten (i : Nat) (l : List Resource) :
    ((enumFrom i l).map (fun ic =>
      if specNotableName (condName ic.2).1
      then [firstWordLower (condName ic.2).1] else [])).flatten
    = notableWordsOf l := by
  induction l generalizing i with
  | nil => rfl
  | cons c rest ih =>
    by_cases hc : specNotableName (condName c).1 = true <;>
      simp [enumFrom, notableWordsOf, List.filterMap_cons, hc, ih,
        ← ih (i + 1)]

/-- Claim C7 (amended): a past condition contributes to `notable_history` iff
one of the fixed keywords occurs as a substring of the **whole** lowercased
name (not just the first word); what is collected is the first word of the
lowercased name; the collected entries are deduplicated. -/
theorem claim_C7 (pid pname now : String) (conditions : List Resource)
    (t : String) (m : Meta)
    (hok : _create_past_conditions_doc pid pname now conditions = .ok (t, m)) :
    ∃ pastL, exceptFilter
        (fun c => (condClinicalCode c).map (fun oc => !(oc == some "active")))
        conditions = .ok pastL ∧
      metaFind m "notable_history" = some (.s
        (if !(notableWordsOf pastL).isEmpty
         then String.intercalate ", " (pyDedup (notableWordsOf pastL)) else "")) ∧
      (pyDedup (notableWordsOf pastL)).Nodup := by
  unfold _create_past_conditions_doc at hok
  rcases ebind_eq_ok.1 hok with ⟨pastL, hpast, h1⟩
  rcases ebind_eq_ok.1 h1 with ⟨items, hitems, h2⟩
  rw [epure] at h2
  cases h2
  refine ⟨pastL, hpast, ?_, pyDedup_nodup _⟩
  have hsnd : items.map (fun x => x.2) = (enumFrom 1 pastL).map (fun ic =>
      if specNotableName (condName ic.2).1
      then [firstWordLower (condName ic.2).1] else []) :=
    mapME_map pastCondItem (fun x => x.2) _
      (fun x y hy => pastCondItem_snd hy) (enumFrom 1 pastL) items hitems
  simp only [metaFind, alFind]
  simp only [hsnd, notable_flatten]
  simp

/-- The claim as frozen is false at the concrete past condition named
"History of cancer": no keyword is a substring of the first word
(`"history"`), yet the condition contributes (`notable_history = "history"`). -/
theorem claim_C7_counterexample :
    (∃ t m, _create_past_conditions_doc "p" "n" "d" [condCancerFx] = .ok (t, m) ∧
      metaFind m "notable_history" = some (.s "history")) ∧
    firstWordLower "History of cancer" = "history" ∧
    (∀ kw ∈ notableKeywords, strContains "history" kw = false) := by
  refine ⟨⟨_, _, rfl, by decide⟩, by decide, by decide⟩

theorem claim_C7_witness :
    ∃ t m pastL,
      _create_past_conditions_doc "p" "n" "d" [condCancerFx] = .ok (t, m) ∧
      exceptFilter
        (fun c => (condClinicalCode c).map (fun oc => !(oc == some "active")))
        [condCancerFx] = .ok pastL ∧
      metaFind m "notable_history" = some (.s
        (if !(notableWordsOf pastL).isEmpty
         then String.intercalate ", " (pyDedup (notableWordsOf pastL)) else "")) ∧
      (pyDedup (notableWordsOf pastL)).Nodup := by
  cases hok : _create_past_conditions_doc "p" "n" "d" [condCancerFx] with
  | error e =>
    have hok2 : exceptIsOk
        (_create_past_conditions_doc "p" "n" "d" [condCancerFx]) = true := rfl
    rw [hok] at hok2
    simp [exceptIsOk] at hok2
  | ok pair =>
    obtain ⟨t, m⟩ := pair
    obtain ⟨pastL, h1, h2, h3⟩ := claim_C7 "p" "n" "d" [condCancerFx] t m hok
    exact ⟨t, m, pastL, rfl, h1, h2, h3⟩

/-! ## Claim C5: latest-by-date vitals reduction -/

theorem charListLt_irrefl : ∀ l : List Char, charListLt l l = false := by
  intro l
  induction l with
  | nil => rfl
  | cons x xs ih => simp [charListLt, ih, lt_irrefl]

theorem pyStrLt_irrefl (s : String) : pyStrLt s s = false :=
  charListLt_irrefl s.data

theorem charListLt_trans {a b c : List Char} :
    charListLt a b = true → charListLt b c = true → charListLt a c = true := by
  induction c generalizing a b with
  | nil => intro _ h2; cases b <;> simp [charListLt] at h2
  | cons z zs ihc =>
    intro h1 h2
    cases b with
    | nil => cases a <;> simp [charListLt] at h1
    | cons y ys =>
      cases a with
      | nil => simp [charListLt]
      | cons x xs =>
        simp only [charListLt, Bool.or_eq_true, Bool.and_eq_true,
          decide_eq_true_eq, beq_iff_eq] at h1 h2 ⊢
        rcases h1 with h1 | ⟨rfl, h1⟩
        · rcases h2 with h2 | ⟨rfl, h2⟩
          · exact Or.inl (lt_trans h1 h2)
          · exact Or.inl h1
        · rcases h2 with h2 | ⟨rfl, h2⟩
          · exact Or.inl h2
          · exact Or.inr ⟨rfl, ihc h1 h2⟩

theorem pyStrLt_trans {a b c : String} (h1 : pyStrLt a b = true)
    (h2 : pyStrLt b c = true) : pyStrLt a c = true :=
  charListLt_trans h1 h2

theorem alFind_append {α : Type} (l1 l2 : List (String × α)) (k : String) :
    alFind (l1 ++ l2) k =
      match alFind l1 k with
      | some v => some v
      | none => alFind l2 k := by
  induction l1 with
  | nil => simp [alFind]
  | cons hd tl ih =>
    obtain ⟨k2, v2⟩ := hd
    by_cases hk : k2 = k <;> simp [alFind, hk, ih]

/-- The invariant carried through the latest-vitals fold: every binding is a
maximal-date representative of its name among the processed entries, and the
bound names are exactly the processed names. -/
theorem latestVitalsStep_inv (processed : List ObsItem)
    (latest : List (String × ObsItem)) (vital : ObsItem)
    (hA : ∀ n ov, alFind latest n = some ov → ov ∈ processed ∧ ov.name = n ∧
      ∀ v ∈ processed, v.name = n → pyStrLt ov.date v.date = false)
    (hB : ∀ n, (∃ v ∈ processed, v.name = n) ↔ ∃ ov, alFind latest n = some ov) :
    (∀ n ov, alFind (latestVitalsStep latest vital) n = some ov →
      ov ∈ processed ++ [vital] ∧ ov.name = n ∧
      ∀ v ∈ processed ++ [vital], v.name = n → pyStrLt ov.date v.date = false) ∧
    (∀ n, (∃ v ∈ processed ++ [vital], v.name = n) ↔
      ∃ ov, alFind (latestVitalsStep latest vital) n = some ov) := by
  unfold latestVitalsStep
  cases hfind : alFind latest vital.name with
  | none =>
    constructor
    · intro n ov hget
      rw [alFind_append] at hget
      cases hget2 : alFind latest n with
      | some ov2 =>
        rw [hget2] at hget
        cases hget
        obtain ⟨hmem, hname, hmax⟩ := hA n ov hget2
        have hnv : vital.name ≠ n := by
          intro heq
          rw [heq] at hfind
          rw [hfind] at hget2
          cases hget2
        refine ⟨List.mem_append_left _ hmem, hname, ?_⟩
        intro v hv hvn
        rcases List.mem_append.1 hv with hv | hv
        · exact hmax v hv hvn
        · rcases List.mem_singleton.1 hv with rfl
          exact absurd hvn hnv
      | none =>
        rw [hget2] at hget
        simp only [alFind] at hget
        by_cases hn : vital.name = n
        · rw [if_pos hn] at hget
          cases hget
          refine ⟨List.mem_append_right _ (List.mem_singleton.2 rfl), hn, ?_⟩
          intro v hv hvn
          rcases List.mem_append.1 hv with hv | hv
          · exfalso
            have : ∃ ov, alFind latest n = some ov := (hB n).1 ⟨v, hv, hvn⟩
            obtain ⟨ov2, hov2⟩ := this
            rw [hget2] at hov2
            cases hov2
          · rcases List.mem_singleton.1 hv with rfl
            exact pyStrLt_irrefl _
        · rw [if_neg hn] at hget
          cases hget
    · intro n
      rw [alFind_append]
      constructor
      · rintro ⟨v, hv, hvn⟩
        rcases List.mem_append.1 hv with hv | hv
        · obtain ⟨ov, hov⟩ := (hB n).1 ⟨v, hv, hvn⟩
          exact ⟨ov, by rw [hov]⟩
        · rcases List.mem_singleton.1 hv with rfl
          cases hget2 : alFind latest n with
          | some ov2 => exact ⟨ov2, rfl⟩
          | none => exact ⟨v, by simp [alFind, hvn]⟩
      · rintro ⟨ov, hov⟩
        cases hget2 : alFind latest n with
        | some ov2 =>
          obtain ⟨v, hv, hvn⟩ := (hB n).2 ⟨ov2, hget2⟩
          exact ⟨v, List.mem_append_left _ hv, hvn⟩
        | none =>
          rw [hget2] at hov
          simp only [alFind] at hov
          by_cases hn : vital.name = n
          · exact ⟨vital, List.mem_append_right _ (List.mem_singleton.2 rfl), hn⟩
          · rw [if_neg hn] at hov
            cases hov
  | some old =>
    obtain ⟨holdmem, holdname, holdmax⟩ := hA vital.name old hfind
    dsimp only
    by_cases hlt : pyStrLt old.date vital.date = true
    · rw [if_pos hlt]
      constructor
      · intro n ov hget
        by_cases hn : vital.name = n
        · subst hn
          rw [alFind_alSet_self] at hget
          cases hget
          refine ⟨List.mem_append_right _ (List.mem_singleton.2 rfl), rfl, ?_⟩
          intro v hv hvn
          rcases List.mem_append.1 hv with hv | hv
          · have hvle := holdmax v hv hvn
            by_cases hx : pyStrLt vital.date v.date = true
            · exact absurd (pyStrLt_trans hlt hx) (by simp [hvle])
            · simpa using hx
          · rcases List.mem_singleton.1 hv with rfl
            exact pyStrLt_irrefl _
        · rw [alFind_alSet_ne _ _ _ _ hn] at hget
          obtain ⟨hmem, hname, hmax⟩ := hA n ov hget
          refine ⟨List.mem_append_left _ hmem, hname, ?_⟩
          intro v hv hvn
          rcases List.mem_append.1 hv with hv | hv
          · exact hmax v hv hvn
          · rcases List.mem_singleton.1 hv with rfl
            exact absurd hvn hn
      · intro n
        constructor
        · rintro ⟨v, hv, hvn⟩
          by_cases hn : vital.name = n
          · exact ⟨vital, by rw [← hn, alFind_alSet_self]⟩
          · rw [alFind_alSet_ne _ _ _ _ hn]
            rcases List.mem_append.1 hv with hv | hv
            · exact (hB n).1 ⟨v, hv, hvn⟩
            · rcases List.mem_singleton.1 hv with rfl
              exact absurd hvn hn
        · rintro ⟨ov, hov⟩
          by_cases hn : vital.name = n
          · exact ⟨vital, List.mem_append_right _ (List.mem_singleton.2 rfl), hn⟩
          · rw [alFind_alSet_ne _ _ _ _ hn] at hov
            obtain ⟨v, hv, hvn⟩ := (hB n).2 ⟨ov, hov⟩
            exact ⟨v, List.mem_append_left _ hv, hvn⟩
    · rw [if_neg hlt]
      constructor
      · intro n ov hget
        obtain ⟨hmem, hname, hmax⟩ := hA n ov hget
        refine ⟨List.mem_append_left _ hmem, hname, ?_⟩
        intro v hv hvn
        rcases List.mem_append.1 hv with hv | hv
        · exact hmax v hv hvn
        · rcases List.mem_singleton.1 hv with rfl
          rw [← hvn] at hget
          rw [hfind] at hget
          cases hget
          simpa using hlt
      · intro n
        constructor
        · rintro ⟨v, hv, hvn⟩
          rcases List.mem_append.1 hv with hv | hv
          · exact (hB n).1 ⟨v, hv, hvn⟩
          · rcases List.mem_singleton.1 hv with rfl
            exact ⟨old, by rw [← hvn, hfind]⟩
        · rintro ⟨ov, hov⟩
          obtain ⟨v, hv, hvn⟩ := (hB n).2 ⟨ov, hov⟩
          exact ⟨v, List.mem_append_left _ hv, hvn⟩

theorem latestFold_inv : ∀ (rest processed : List ObsItem)
    (latest : List (String × ObsItem)),
    (∀ n ov, alFind latest n = some ov → ov ∈ processed ∧ ov.name = n ∧
      ∀ v ∈ processed, v.name = n → pyStrLt ov.date v.date = false) →
    (∀ n, (∃ v ∈ processed, v.name = n) ↔ ∃ ov, alFind latest n = some ov) →
    (∀ n ov, alFind (rest.foldl latestVitalsStep latest) n = some ov →
      ov ∈ processed ++ rest ∧ ov.name = n ∧
      ∀ v ∈ processed ++ rest, v.name = n → pyStrLt ov.date v.date = false) ∧
    (∀ n, (∃ v ∈ processed ++ rest, v.name = n) ↔
      ∃ ov, alFind (rest.foldl latestVitalsStep latest) n = some ov) := by
  intro rest
  induction rest with
  | nil =>
    intro processed latest hA hB
    constructor
    · intro n ov h
      simpa using hA n ov h
    · intro n
      simpa using hB n
  | cons vital vs ih =>
    intro processed latest hA hB
    obtain ⟨hA2, hB2⟩ := latestVitalsStep_inv processed latest vital hA hB
    have := ih (processed ++ [vital]) (latestVitalsStep latest vital) hA2 hB2
    simpa [List.append_assoc] using this

/-- Claim C5: the vitals reduction keeps, per distinct observation name, one
entry of that name drawn from the bucket whose date is lexicographically
maximal; on the two-entry BMI bucket it keeps the 2024-06-01 entry and
classifies `bmi_category = "normal"`. -/
theorem claim_C5 :
    (∀ vitals : List ObsItem, vitals ≠ [] →
      (∀ n ov, alFind (vitals.foldl latestVitalsStep []) n = some ov →
        ov ∈ vitals ∧ ov.name = n ∧
        ∀ v ∈ vitals, v.name = n → pyStrLt ov.date v.date = false) ∧
      (∀ n, (∃ v ∈ vitals, v.name = n) ↔
        ∃ ov, alFind (vitals.foldl latestVitalsStep []) n = some ov)) ∧
    alFind ([bmiJanFx, bmiJunFx].foldl latestVitalsStep []) "Body mass index (BMI)"
      = some bmiJunFx ∧
    (_create_vitals_doc "p" "n" "d" [bmiJanFx, bmiJunFx]).1
      = "MOST RECENT VITAL SIGNS (2024-06-01):\n\nBody mass index (BMI): 24 kg/m2\n" ∧
    metaFind (_create_vitals_doc "p" "n" "d" [bmiJanFx, bmiJunFx]).2 "bmi_category"
      = some (.s "normal") := by
  refine ⟨?_, by decide, rfl, by decide⟩
  intro vitals _
  have h := latestFold_inv vitals [] []
    (by intro n ov h; simp [alFind] at h)
    (by intro n; simp [alFind])
  simpa using h

theorem claim_C5_witness :
    ([bmiJanFx, bmiJunFx] ≠ []) ∧
    (bmiJunFx ∈ [bmiJanFx, bmiJunFx] ∧ bmiJunFx.name = "Body mass index (BMI)" ∧
      ∀ v ∈ [bmiJanFx, bmiJunFx], v.name = "Body mass index (BMI)" →
        pyStrLt bmiJunFx.date v.date = false) := by
  have h := (claim_C5.1 [bmiJanFx, bmiJunFx] (by decide)).1
    "Body mass index (BMI)" bmiJunFx claim_C5.2.1
  exact ⟨by decide, h⟩

/-! ## Claim C1: patient-only bundles yield exactly the three base summaries -/

/-- Claim C1 (amended: the Patient sub-resource must carry an id — the
orchestrator reads the patient-entry resource id unguarded, see the
counterexample): a Bundle-typed bundle whose single entry wraps one Patient
(and nothing else) yields exactly the three summaries
patient_information / active_conditions / past_conditions, in that order,
and both condition summaries report zero conditions. -/
theorem claim_C1 (now : String) (b : Bundle) (p : Resource) (pid : String)
    (hb : b.resourceType = some "Bundle")
    (he : b.entry = [{ resource := some p }])
    (hp : p.resourceType = some "Patient")
    (hid : p.id = some pid) :
    ∃ out, process_fhir_bundle now b = .ok out ∧
      out.document_types
        = ["patient_information", "active_conditions", "past_conditions"] ∧
      out.total_documents = 3 ∧
      out.documents.drop 1
        = ["ACTIVE MEDICAL CONDITIONS (0):\n\nNo active conditions documented.\n",
           "RESOLVED/PAST MEDICAL CONDITIONS (0):\n\nNo past conditions documented.\n"] ∧
      out.metadatas.map (fun m => metaFind m "total_conditions")
        = [none, some (.i 0), some (.i 0)] := by
  obtain ⟨brt, bentry⟩ := b
  simp only at hb he
  subst hb he
  obtain ⟨prt, pidf, pf3, pf4, pf5, pf6, pf7, pf8, pf9, pf10, pf11, pf12, pf13,
    pf14, pf15, pf16, pf17, pf18, pf19, pf20, pf21, pf22, pf23, pf24, pf25,
    pf26, pf27, pf28, pf29, pf30, pf31, pf32⟩ := p
  simp only at hp hid
  subst hp hid
  exact ⟨_, rfl, rfl, rfl, rfl, rfl⟩

/-- The claim as frozen is false on a bundle whose sole (Patient) sub-resource
lacks an id: the run aborts with a KeyError and produces no summaries. -/
theorem claim_C1_counterexample :
    bundleNoId.resourceType = some "Bundle" ∧
    (∃ e ∈ bundleNoId.entry, wrapsPatient e = true) ∧
    process_fhir_bundle "2025-06-01" bundleNoId = .error "KeyError: id" := by
  exact ⟨rfl, ⟨{ resource := some patientNoId }, by decide, by decide⟩, rfl⟩

theorem claim_C1_witness :
    ∃ out, process_fhir_bundle "2025-06-01" bundleA = .ok out ∧
      out.document_types
        = ["patient_information", "active_conditions", "past_conditions"] ∧
      out.total_documents = 3 ∧
      out.documents.drop 1
        = ["ACTIVE MEDICAL CONDITIONS (0):\n\nNo active conditions documented.\n",
           "RESOLVED/PAST MEDICAL CONDITIONS (0):\n\nNo past conditions documented.\n"] ∧
      out.metadatas.map (fun m => metaFind m "total_conditions")
        = [none, some (.i 0), some (.i 0)] :=
  claim_C1 "2025-06-01" bundleA patientA "pa:1 x" rfl rfl rfl rfl

/-! ## Claim C2: fatal input errors and only they -/

theorem ethrow {α : Type} (m : String) : (throw m : Except String α) = .error m := rfl

theorem ebind_eq_error {α β : Type} {x : Except String α}
    {f : α → Except String β} {m : String} :
    x >>= f = .error m ↔ (x = .error m ∨ ∃ a, x = .ok a ∧ f a = .error m) := by
  cases x with
  | ok a => simp [ebind_ok]
  | error e => simp [ebind_error]

theorem emap_eq_error {α β : Type} {x : Except String α} {f : α → β}
    {m : String} : x.map f = .error m ↔ x = .error m := by
  cases x with
  | ok a => simp [emap_ok]
  | error e => simp [emap_error]

theorem epure_ne_error {α : Type} (a : α) (m : String) :
    (pure a : Except String α) ≠ .error m := by
  rw [epure]
  exact fun h => by cases h

theorem findPatientResource_err {entries : List Entry} {m : String}
    (h : findPatientResource entries = .error m) :
    m = "KeyError: resource" ∨ m = "KeyError: resourceType" := by
  induction entries with
  | nil => cases h
  | cons e rest ih =>
    unfold findPatientResource at h
    cases he : e.resource with
    | none => rw [he] at h; cases h; exact Or.inl rfl
    | some r =>
      rw [he] at h
      dsimp only at h
      cases hr : r.resourceType with
      | none => rw [hr] at h; cases h; exact Or.inr rfl
      | some t =>
        rw [hr] at h
        dsimp only at h
        by_cases ht : t = "Patient"
        · rw [if_pos ht] at h; cases h
        · rw [if_neg ht] at h; exact ih h

theorem findPatientResource_some_patient {entries : List Entry} {r : Resource}
    (h : findPatientResource entries = .ok (some r)) :
    ∃ e ∈ entries, wrapsPatient e = true := by
  induction entries with
  | nil => cases h
  | cons e rest ih =>
    unfold findPatientResource at h
    cases he : e.resource with
    | none => rw [he] at h; cases h
    | some r0 =>
      rw [he] at h
      dsimp only at h
      cases hr : r0.resourceType with
      | none => rw [hr] at h; cases h
      | some t =>
        rw [hr] at h
        dsimp only at h
        by_cases ht : t = "Patient"
        · refine ⟨e, List.mem_cons_self e rest, ?_⟩
          simp [wrapsPatient, he, hr, ht]
        · rw [if_neg ht] at h
          obtain ⟨e2, he2, hw⟩ := ih h
          exact ⟨e2, List.mem_cons_of_mem e he2, hw⟩

theorem findPatientResource_not_none {entries : List Entry}
    (h : ∃ e ∈ entries, wrapsPatient e = true) :
    findPatientResource entries ≠ .ok none := by
  induction entries with
  | nil => obtain ⟨e, he, _⟩ := h; simp at he
  | cons e rest ih =>
    unfold findPatientResource
    cases he : e.resource with
    | none => exact fun hc => by cases hc
    | some r =>
      dsimp only
      cases hr : r.resourceType with
      | none => exact fun hc => by cases hc
      | some t =>
        dsimp only
        by_cases ht : t = "Patient"
        · rw [if_pos ht]
          exact fun hc => by cases hc
        · rw [if_neg ht]
          obtain ⟨e2, he2, hw⟩ := h
          rcases List.mem_cons.1 he2 with rfl | he2
          · exfalso
            simp only [wrapsPatient, he] at hw
            rw [hr] at hw
            simp at hw
            exact ht hw
          · exact ih ⟨e2, he2, hw⟩

theorem condClinicalCode_err {c : Resource} {m : String}
    (h : condClinicalCode c = .error m) : m = indexErrorMsg := by
  unfold condClinicalCode at h
  cases hcs : c.clinicalStatus with
  | none => rw [hcs] at h; cases h
  | some cs =>
    rw [hcs] at h
    dsimp only at h
    cases hk : cs.coding with
    | none => rw [hk] at h; cases h
    | some ks =>
      rw [hk] at h
      cases ks with
      | nil => cases h; rfl
      | cons k tl => cases h

theorem exceptFilter_err {α : Type} {p : α → Except String Bool} {l : List α}
    {m : String} (h : exceptFilter p l = .error m) :
    ∃ x ∈ l, p x = .error m := by
  induction l with
  | nil => cases h
  | cons x rest ih =>
    unfold exceptFilter at h
    rcases ebind_eq_error.1 h with h1 | ⟨b, hb, h1⟩
    · exact ⟨x, List.mem_cons_self x rest, h1⟩
    · rcases ebind_eq_error.1 h1 with h2 | ⟨r, hr, h2⟩
      · obtain ⟨y, hy, hpy⟩ := ih h2
        exact ⟨y, List.mem_cons_of_mem x hy, hpy⟩
      · by_cases hbb : b = true <;> simp [hbb] at h2 <;>
          exact absurd h2 (epure_ne_error _ _)

theorem mapME_err {α β : Type} {f : α → Except String β} {l : List α}
    {m : String} (h : mapME f l = .error m) : ∃ x ∈ l, f x = .error m := by
  induction l with
  | nil => cases h
  | cons x rest ih =>
    unfold mapME at h
    rcases ebind_eq_error.1 h with h1 | ⟨y, hy, h1⟩
    · exact ⟨x, List.mem_cons_self x rest, h1⟩
    · rcases ebind_eq_error.1 h1 with h2 | ⟨ys, hys, h2⟩
      · obtain ⟨z, hz, hfz⟩ := ih h2
        exact ⟨z, List.mem_cons_of_mem x hz, hfz⟩
      · exact absurd h2 (epure_ne_error _ _)

theorem emitE_err {mk : Except String (String × Meta)} {d m : String}
    (h : emitE mk d = .error m) : mk = .error m := by
  unfold emitE at h
  rcases ebind_eq_error.1 h with h1 | ⟨pair, hpair, h1⟩
  · exact h1
  · exact absurd h1 (epure_ne_error _ _)

theorem condPred_err {c : Resource} {m : String} {g : Option String → Bool}
    (h : (condClinicalCode c).map g = .error m) : m = indexErrorMsg :=
  condClinicalCode_err (emap_eq_error.1 h)

theorem active_doc_err {pid pname now : String} {conditions : List Resource}
    {m : String}
    (h : _create_active_conditions_doc pid pname now conditions = .error m) :
    m = indexErrorMsg := by
  unfold _create_active_conditions_doc at h
  rcases ebind_eq_error.1 h with h1 | ⟨l, hl, h1⟩
  · obtain ⟨c, _, hc⟩ := exceptFilter_err h1
    exact condPred_err hc
  · exact absurd h1 (epure_ne_error _ _)

theorem past_doc_err {pid pname now : String} {conditions : List Resource}
    {m : String}
    (h : _create_past_conditions_doc pid pname now conditions = .error m) :
    m = indexErrorMsg := by
  unfold _create_past_conditions_doc at h
  rcases ebind_eq_error.1 h with h1 | ⟨l, hl, h1⟩
  · obtain ⟨c, _, hc⟩ := exceptFilter_err h1
    exact condPred_err hc
  · rcases ebind_eq_error.1 h1 with h2 | ⟨items, hitems, h2⟩
    · obtain ⟨ic, _, hic⟩ := mapME_err h2
      have := pastCondItem_ok ic
      rw [hic] at this
      simp [exceptIsOk] at this
    · exact absurd h2 (epure_ne_error _ _)

theorem current_doc_ok (pid pname now : String) (medications : List MedItem) :
    ∃ v, _create_current_medications_doc pid pname now medications = .ok v := by
  unfold _create_current_medications_doc
  obtain ⟨items, hitems⟩ := mapME_ok currentMedItem (enumFrom 1 medications)
    (fun im _ => exceptIsOk_exists (currentMedItem_ok im))
  rw [hitems]
  exact ⟨_, rfl⟩

theorem allergyReactionConcept_err {a : Resource} {m : String}
    (h : allergyReactionConcept a = .error m) : m = indexErrorMsg := by
  unfold allergyReactionConcept at h
  cases hr : a.reaction with
  | nil => rw [hr] at h; cases h
  | cons r tl =>
    rw [hr] at h
    dsimp only at h
    cases hm : r.manifestation with
    | none => rw [hm] at h; cases h
    | some ms =>
      rw [hm] at h
      cases ms with
      | nil => cases h; rfl
      | cons x xs => cases h

theorem allergyItem_err {ia : Nat × Resource} {m : String}
    (h : allergyItem ia = .error m) : m = indexErrorMsg := by
  unfold allergyItem at h
  rcases ebind_eq_error.1 h with h1 | ⟨rc, hrc, h1⟩
  · exact allergyReactionConcept_err h1
  · exact absurd h1 (epure_ne_error _ _)

theorem allergies_doc_err {pid pname now : String} {allergies : List Resource}
    {m : String}
    (h : _create_allergies_doc pid pname now allergies = .error m) :
    m = indexErrorMsg := by
  unfold _create_allergies_doc at h
  rcases ebind_eq_error.1 h with h1 | ⟨items, hitems, h1⟩
  · obtain ⟨ia, _, hia⟩ := mapME_err h1
    exact allergyItem_err hia
  · exact absurd h1 (epure_ne_error _ _)

theorem condClinicalCodeD_err {c : Resource} {m : String}
    (h : condClinicalCodeD c = .error m) : m = indexErrorMsg := by
  unfold condClinicalCodeD at h
  exact condClinicalCode_err (emap_eq_error.1 h)

theorem socialAlcoholPiece_err {c : Resource} {name m : String}
    (h : socialAlcoholPiece c name = .error m) : m = indexErrorMsg := by
  unfold socialAlcoholPiece at h
  by_cases ha : strContains (pyLower name) "alcohol" = true
  · rw [if_pos ha] at h
    exact condClinicalCodeD_err (emap_eq_error.1 h)
  · rw [if_neg ha] at h
    exact absurd h (epure_ne_error _ _)

theorem socialViolencePiece_err {c : Resource} {name m : String}
    (h : socialViolencePiece c name = .error m) : m = indexErrorMsg := by
  unfold socialViolencePiece at h
  by_cases hv : (strContains (pyLower name) "abuse"
      || strContains (pyLower name) "violence") = true
  · rw [if_pos hv] at h
    exact condClinicalCodeD_err (emap_eq_error.1 h)
  · rw [if_neg hv] at h
    exact absurd h (epure_ne_error _ _)

theorem socialCondItem_err {c : Resource} {m : String}
    (h : socialCondItem c = .error m) : m = indexErrorMsg := by
  unfold socialCondItem at h
  rcases ebind_eq_error.1 h with h1 | ⟨p1, hp1, h1⟩
  · exact socialAlcoholPiece_err h1
  · rcases ebind_eq_error.1 h1 with h2 | ⟨p2, hp2, h2⟩
    · exact socialViolencePiece_err h2
    · exact absurd h2 (epure_ne_error _ _)

theorem social_doc_err {pid pname now : String} {social_obs : List ObsItem}
    {conditions : List Resource} {m : String}
    (h : _create_social_history_doc pid pname now social_obs conditions
      = .error m) : m = indexErrorMsg := by
  unfold _create_social_history_doc at h
  rcases ebind_eq_error.1 h with h1 | ⟨items, hitems, h1⟩
  · obtain ⟨c, _, hc⟩ := mapME_err h1
    exact socialCondItem_err hc
  · exact absurd h1 (epure_ne_error _ _)

/-- A guarded optional emission can only propagate its builder's error. -/
theorem guardedE_err {g : Bool} {mk : Except String (String × Meta)}
    {d m : String}
    (h : (if g then pure [] else emitE mk d) = .error m) : mk = .error m := by
  by_cases hg : g = true
  · rw [if_pos hg] at h
    exact absurd h (epure_ne_error _ _)
  · rw [if_neg hg] at h
    exact emitE_err h

/-- Every failure of the emission chain is the modelled IndexError. -/
theorem buildParts_err {now pid pname : String} {info : Dict}
    {entries : List Entry} {m : String}
    (h : buildParts now pid pname info entries = .error m) :
    m = indexErrorMsg := by
  simp only [buildParts] at h
  rcases ebind_eq_error.1 h with h1 | ⟨t2, ht2, h1⟩
  · exact active_doc_err (emitE_err h1)
  · rcases ebind_eq_error.1 h1 with h2 | ⟨t3, ht3, h2⟩
    · exact past_doc_err (emitE_err h2)
    · rcases ebind_eq_error.1 h2 with h3 | ⟨t4, ht4, h3⟩
      · have hcur := guardedE_err h3
        obtain ⟨v, hv⟩ := current_doc_ok pid pname now
          (_get_current_medications (bucketOf entries "Medication")
            (bucketOf entries "MedicationRequest"))
        rw [hv] at hcur
        cases hcur
      · rcases ebind_eq_error.1 h3 with h4 | ⟨t10, ht10, h4⟩
        · exact allergies_doc_err (guardedE_err h4)
        · rcases ebind_eq_error.1 h4 with h5 | ⟨t12, ht12, h5⟩
          · exact social_doc_err (guardedE_err h5)
          · exact absurd h5 (epure_ne_error _ _)

/-- Claim C2: a non-Bundle root or an absent Patient sub-resource aborts the
run with an error and no output is produced; when the root is a Bundle and
some entry wraps a Patient, neither of the two fatal errors is raised. -/
theorem claim_C2 (now : String) (b : Bundle) :
    (b.resourceType ≠ some "Bundle" →
      process_fhir_bundle now b = .error notBundleMsg) ∧
    (b.resourceType = some "Bundle" →
      (∀ e ∈ b.entry, wrapsPatient e = false) →
      ∃ m, process_fhir_bundle now b = .error m) ∧
    (b.resourceType = some "Bundle" →
      (∃ e ∈ b.entry, wrapsPatient e = true) →
      process_fhir_bundle now b ≠ .error notBundleMsg ∧
      process_fhir_bundle now b ≠ .error noPatientMsg) := by
  refine ⟨?_, ?_, ?_⟩
  · intro hne
    unfold process_fhir_bundle
    rw [if_pos hne]
    rfl
  · intro hb hnone
    unfold process_fhir_bundle
    rw [if_neg (by simp [hb])]
    dsimp only
    cases hscan : findPatientResource b.entry with
    | error m => exact ⟨m, rfl⟩
    | ok patient? =>
      cases patient? with
      | none => exact ⟨noPatientMsg, rfl⟩
      | some r =>
        exfalso
        obtain ⟨e, he, hw⟩ := findPatientResource_some_patient hscan
        rw [hnone e he] at hw
        cases hw
  · intro hb hex
    unfold process_fhir_bundle
    rw [if_neg (by simp [hb])]
    dsimp only
    cases hscan : findPatientResource b.entry with
    | error m =>
      rcases findPatientResource_err hscan with rfl | rfl <;>
        exact ⟨by intro hc; simp [ebind_error, notBundleMsg] at hc,
          by intro hc; simp [ebind_error, noPatientMsg] at hc⟩
    | ok patient? =>
      cases patient? with
      | none => exact absurd hscan (findPatientResource_not_none hex)
      | some r =>
        simp only [ebind_ok]
        cases hid : r.id with
        | none =>
          exact ⟨by intro hc; simp [ethrow, notBundleMsg] at hc,
            by intro hc; simp [ethrow, noPatientMsg] at hc⟩
        | some pid =>
          dsimp only
          cases hbp : buildParts now pid
              (dictGet (extract_patient_info r) "full_name" "Unknown Patient")
              (extract_patient_info r) b.entry with
          | error m =>
            have := buildParts_err hbp
            subst this
            exact ⟨by intro hc; simp [ebind_error, indexErrorMsg, notBundleMsg] at hc,
              by intro hc; simp [ebind_error, indexErrorMsg, noPatientMsg] at hc⟩
          | ok parts =>
            exact ⟨by intro hc; simp [ebind_ok, epure] at hc,
              by intro hc; simp [ebind_ok, epure] at hc⟩

theorem claim_C2_witness :
    process_fhir_bundle "2025-06-01" bundleWrongType = .error notBundleMsg ∧
    (∃ m, process_fhir_bundle "2025-06-01" bundleNoPatient = .error m) ∧
    (process_fhir_bundle "2025-06-01" bundleA ≠ .error notBundleMsg ∧
      process_fhir_bundle "2025-06-01" bundleA ≠ .error noPatientMsg) :=
  ⟨(claim_C2 "2025-06-01" bundleWrongType).1 (by decide),
   (claim_C2 "2025-06-01" bundleNoPatient).2.1 rfl (by decide),
   (claim_C2 "2025-06-01" bundleA).2.2 rfl
     ⟨{ resource := some patientA }, by decide, by decide⟩⟩

/-! ## Claim C10: social_history emission is keyed to the social bucket -/

theorem emitE_ok_ids {mk : Except String (String × Meta)} {d : String}
    {l : List Triple} (h : emitE mk d = .ok l) :
    l.map (fun x => x.2.2) = [d] := by
  unfold emitE at h
  rcases ebind_eq_ok.1 h with ⟨pair, hpair, h1⟩
  rw [epure] at h1
  cases h1
  rfl

theorem guardedE_ok_ids {g : Bool} {mk : Except String (String × Meta)}
    {d : String} {l : List Triple}
    (h : (if g then pure [] else emitE mk d) = .ok l) :
    l.map (fun x => x.2.2) = if g then [] else [d] := by
  by_cases hg : g = true
  · rw [if_pos hg] at h
    rw [epure] at h
    cases h
    simp [hg]
  · rw [if_neg hg] at h
    simp only [Bool.not_eq_true] at hg
    simp [hg, emitE_ok_ids h]

theorem guarded_emit_ids (g : Bool) (pair : String × Meta) (d : String) :
    (if g then [] else emit pair d).map (fun x => x.2.2)
      = if g then [] else [d] := by
  by_cases hg : g = true <;> simp [hg, emit]

/-- The document-id list a successful emission chain produces. -/
theorem buildParts_ids {now pid pname : String} {info : Dict}
    {entries : List Entry} {parts : List Triple}
    (h : buildParts now pid pname info entries = .ok parts) :
    parts.map (fun x => x.2.2)
      = ["patient_information", "active_conditions", "past_conditions"]
        ++ (if (_get_current_medications (bucketOf entries "Medication")
              (bucketOf entries "MedicationRequest")).isEmpty
            then [] else ["current_medications"])
        ++ (if (_get_past_medications (bucketOf entries "MedicationRequest")).isEmpty
            then [] else ["past_medications"])
        ++ (if (_get_vital_signs (bucketOf entries "Observation")).isEmpty
            then [] else ["recent_vitals"])
        ++ (if (_get_lab_results (bucketOf entries "Observation")).isEmpty
            then [] else ["recent_labs"])
        ++ (if (bucketOf entries "Immunization").isEmpty
            then [] else ["immunizations"])
        ++ (if (bucketOf entries "Procedure").isEmpty
            then [] else ["procedures"])
        ++ (if (bucketOf entries "AllergyIntolerance").isEmpty
            then [] else ["allergies"])
        ++ (if (bucketOf entries "FamilyMemberHistory").isEmpty
            then [] else ["family_history"])
        ++ (if (_get_social_history (bucketOf entries "Observation")).isEmpty
            then [] else ["social_history"]) := by
  simp only [buildParts] at h
  rcases ebind_eq_ok.1 h with ⟨t2, ht2, h1⟩
  rcases ebind_eq_ok.1 h1 with ⟨t3, ht3, h2⟩
  rcases ebind_eq_ok.1 h2 with ⟨t4, ht4, h3⟩
  rcases ebind_eq_ok.1 h3 with ⟨t10, ht10, h4⟩
  rcases ebind_eq_ok.1 h4 with ⟨t12, ht12, h5⟩
  rw [epure] at h5
  cases h5
  simp only [List.map_append]
  rw [emitE_ok_ids ht2, emitE_ok_ids ht3, guardedE_ok_ids ht4,
    guardedE_ok_ids ht10, guardedE_ok_ids ht12,
    guarded_emit_ids, guarded_emit_ids, guarded_emit_ids, guarded_emit_ids,
    guarded_emit_ids, guarded_emit_ids]
  simp [emit]

/-- Claim C10: on a successful run the `social_history` summary is present
iff the social-observation bucket is non-empty; the condition-driven text
blocks alone never cause it to be emitted. -/
theorem claim_C10 (now : String) (b : Bundle) (out : ProcResult)
    (h : process_fhir_bundle now b = .ok out) :
    ("social_history" ∈ out.document_types ↔
      _get_social_history (bucketOf b.entry "Observation") ≠ []) := by
  unfold process_fhir_bundle at h
  by_cases hrt : b.resourceType ≠ some "Bundle"
  · rw [if_pos hrt] at h
    cases h
  · rw [if_neg hrt] at h
    dsimp only at h
    rcases ebind_eq_ok.1 h with ⟨patient?, hscan, h1⟩
    cases patient? with
    | none => cases h1
    | some r =>
      dsimp only at h1
      cases hid : r.id with
      | none => rw [hid] at h1; cases h1
      | some pid =>
        rw [hid] at h1
        dsimp only at h1
        rcases ebind_eq_ok.1 h1 with ⟨parts, hparts, h2⟩
        rw [epure] at h2
        cases h2
        have hids := buildParts_ids hparts
        have hseg : ∀ (g : Bool) (name : String), name ≠ "social_history" →
            ("social_history" ∈ (if g then ([] : List String) else [name]) ↔ False) := by
          intro g name hne
          by_cases hg : g = true
          · simp [hg]
          · simp [hg]
            exact fun hx => hne hx.symm
        dsimp only
        rw [hids]
        simp only [List.mem_append,
          hseg _ "current_medications" (by decide),
          hseg _ "past_medications" (by decide),
          hseg _ "recent_vitals" (by decide),
          hseg _ "recent_labs" (by decide),
          hseg _ "immunizations" (by decide),
          hseg _ "procedures" (by decide),
          hseg _ "allergies" (by decide),
          hseg _ "family_history" (by decide)]
        by_cases hg : (_get_social_history (bucketOf b.entry "Observation")).isEmpty
            = true
        · simp [hg, List.isEmpty_iff.1 hg]
        · have hne2 : _get_social_history (bucketOf b.entry "Observation") ≠ [] := by
            intro hc
            rw [hc] at hg
            simp at hg
          simp [hg, hne2]

theorem claim_C10_witness :
    ∃ out, process_fhir_bundle "2025-06-01" bundleA = .ok out ∧
      ("social_history" ∈ out.document_types ↔
        _get_social_history (bucketOf bundleA.entry "Observation") ≠ []) := by
  cases hok : process_fhir_bundle "2025-06-01" bundleA with
  | error e =>
    have h2 : exceptIsOk (process_fhir_bundle "2025-06-01" bundleA) = true := rfl
    rw [hok] at h2
    simp [exceptIsOk] at h2
  | ok out => exact ⟨out, rfl, claim_C10 "2025-06-01" bundleA out hok⟩

/-! ## Claim C6: which field absences the run tolerates -/

theorem findPatientResource_ok {entries : List Entry}
    (htyped : ∀ e ∈ entries, entryTyped e = true)
    (hpat : ∃ e ∈ entries, wrapsPatient e = true) :
    ∃ r, findPatientResource entries = .ok (some r) ∧
      r ∈ entries.filterMap (fun e => e.resource) ∧
      r.resourceType = some "Patient" := by
  induction entries with
  | nil => obtain ⟨e, he, _⟩ := hpat; simp at he
  | cons e rest ih =>
    have hty := htyped e (List.mem_cons_self e rest)
    unfold findPatientResource
    cases he : e.resource with
    | none => rw [entryTyped, he] at hty; cases hty
    | some r =>
      dsimp only
      cases hr : r.resourceType with
      | none =>
        rw [entryTyped, he] at hty
        dsimp only at hty
        rw [hr] at hty
        cases hty
      | some t =>
        dsimp only
        by_cases ht : t = "Patient"
        · rw [if_pos ht]
          refine ⟨r, rfl, ?_, by rw [hr, ht]⟩
          simp [List.filterMap_cons, he]
        · rw [if_neg ht]
          have hpat2 : ∃ e2 ∈ rest, wrapsPatient e2 = true := by
            obtain ⟨e2, he2, hw⟩ := hpat
            rcases List.mem_cons.1 he2 with rfl | he2
            · exfalso
              simp only [wrapsPatient, he] at hw
              rw [hr] at hw
              simp at hw
              exact ht hw
            · exact ⟨e2, he2, hw⟩
          obtain ⟨r2, hs, hm, hrt2⟩ :=
            ih (fun e2 he2 => htyped e2 (List.mem_cons_of_mem e he2)) hpat2
          exact ⟨r2, hs, by simp [List.filterMap_cons, he, hm], hrt2⟩

theorem enumFrom_snd_mem {α : Type} {i : Nat} {x : Nat × α} {l : List α}
    (h : x ∈ enumFrom i l) : x.2 ∈ l := by
  induction l generalizing i with
  | nil => simp [enumFrom] at h
  | cons y rest ih =>
    rcases List.mem_cons.1 h with rfl | h2
    · exact List.mem_cons_self y rest
    · exact List.mem_cons_of_mem y (ih h2)

theorem allergyItem_ok {ia : Nat × Resource}
    (h : allergyOkB ia.2 = true) : ∃ v, allergyItem ia = .ok v := by
  obtain ⟨i, a⟩ := ia
  unfold allergyOkB at h
  dsimp only at h
  obtain ⟨rc, hrc⟩ := exceptIsOk_exists h
  unfold allergyItem
  dsimp only
  rw [hrc]
  exact ⟨_, rfl⟩

theorem allergies_doc_ok (pid pname now : String) (allergies : List Resource)
    (h : ∀ a ∈ allergies, allergyOkB a = true) :
    ∃ v, _create_allergies_doc pid pname now allergies = .ok v := by
  unfold _create_allergies_doc
  obtain ⟨items, hitems⟩ := mapME_ok allergyItem (enumFrom 1 allergies)
    (fun ia hia => allergyItem_ok (h ia.2 (enumFrom_snd_mem hia)))
  rw [hitems]
  exact ⟨_, rfl⟩

theorem socialPiece_ok {c : Resource} (name : String)
    (h : condStatusOkB c = true) :
    (∃ v, socialAlcoholPiece c name = .ok v) ∧
    (∃ v, socialViolencePiece c name = .ok v) := by
  obtain ⟨oc, hoc⟩ := exceptIsOk_exists h
  have hd : condClinicalCodeD c = .ok (oc.getD "") := by
    unfold condClinicalCodeD
    rw [hoc]
    rfl
  constructor
  · unfold socialAlcoholPiece
    by_cases ha : strContains (pyLower name) "alcohol" = true
    · rw [if_pos ha, hd]
      exact ⟨_, rfl⟩
    · rw [if_neg ha]
      exact ⟨_, rfl⟩
  · unfold socialViolencePiece
    by_cases hv : (strContains (pyLower name) "abuse"
        || strContains (pyLower name) "violence") = true
    · rw [if_pos hv, hd]
      exact ⟨_, rfl⟩
    · rw [if_neg hv]
      exact ⟨_, rfl⟩

theorem socialCondItem_ok {c : Resource} (h : condStatusOkB c = true) :
    ∃ v, socialCondItem c = .ok v := by
  obtain ⟨⟨v1, h1⟩, v2, h2⟩ :=
    socialPiece_ok (c := c) (_get_codeable_concept_text c.code) h
  unfold socialCondItem
  dsimp only
  rw [h1, ebind_ok, h2, ebind_ok]
  exact ⟨_, rfl⟩

theorem social_doc_ok (pid pname now : String) (social_obs : List ObsItem)
    (conditions : List Resource)
    (h : ∀ c ∈ conditions, condStatusOkB c = true) :
    ∃ v, _create_social_history_doc pid pname now social_obs conditions
      = .ok v := by
  unfold _create_social_history_doc
  obtain ⟨items, hitems⟩ := mapME_ok socialCondItem conditions
    (fun c hc => socialCondItem_ok (h c hc))
  rw [hitems]
  exact ⟨_, rfl⟩

theorem emitE_ok_eval (pair : String × Meta) (d : String) :
    emitE (.ok pair) d = .ok [(pair.1, pair.2, d)] := rfl

/-- The emission chain succeeds when every condition's status coding and every
allergy's first reaction manifestation are extractable. -/
theorem buildParts_ok (now pid pname : String) (info : Dict)
    (entries : List Entry)
    (hcond : ∀ c ∈ bucketOf entries "Condition", condStatusOkB c = true)
    (hall : ∀ a ∈ bucketOf entries "AllergyIntolerance", allergyOkB a = true) :
    ∃ parts, buildParts now pid pname info entries = .ok parts := by
  obtain ⟨ta, ma, hact, _⟩ :=
    active_doc_result pid pname now (bucketOf entries "Condition") hcond
  obtain ⟨tp, mp2, hpast, _⟩ :=
    past_doc_result pid pname now (bucketOf entries "Condition") hcond
  have h4 : ∃ l4, (if (_get_current_medications (bucketOf entries "Medication")
      (bucketOf entries "MedicationRequest")).isEmpty
      then (pure [] : Except String (List Triple))
      else emitE (_create_current_medications_doc pid pname now
        (_get_current_medications (bucketOf entries "Medication")
          (bucketOf entries "MedicationRequest"))) "current_medications")
      = .ok l4 := by
    by_cases hg : (_get_current_medications (bucketOf entries "Medication")
        (bucketOf entries "MedicationRequest")).isEmpty = true
    · exact ⟨[], by rw [if_pos hg]; rfl⟩
    · obtain ⟨v, hv⟩ := current_doc_ok pid pname now _
      exact ⟨_, by rw [if_neg hg, hv]; rfl⟩
  have h10 : ∃ l10, (if (bucketOf entries "AllergyIntolerance").isEmpty
      then (pure [] : Except String (List Triple))
      else emitE (_create_allergies_doc pid pname now
        (bucketOf entries "AllergyIntolerance")) "allergies")
      = .ok l10 := by
    by_cases hg : (bucketOf entries "AllergyIntolerance").isEmpty = true
    · exact ⟨[], by rw [if_pos hg]; rfl⟩
    · obtain ⟨v, hv⟩ := allergies_doc_ok pid pname now _ hall
      exact ⟨_, by rw [if_neg hg, hv]; rfl⟩
  have h12 : ∃ l12, (if (_get_social_history (bucketOf entries "Observation")).isEmpty
      then (pure [] : Except String (List Triple))
      else emitE (_create_social_history_doc pid pname now
        (_get_social_history (bucketOf entries "Observation"))
        (bucketOf entries "Condition")) "social_history")
      = .ok l12 := by
    by_cases hg : (_get_social_history (bucketOf entries "Observation")).isEmpty
        = true
    · exact ⟨[], by rw [if_pos hg]; rfl⟩
    · obtain ⟨v, hv⟩ := social_doc_ok pid pname now _ _ hcond
      exact ⟨_, by rw [if_neg hg, hv]; rfl⟩
  obtain ⟨l4, h4⟩ := h4
  obtain ⟨l10, h10⟩ := h10
  obtain ⟨l12, h12⟩ := h12
  simp only [buildParts]
  rw [hact, emitE_ok_eval, ebind_ok, hpast, emitE_ok_eval, ebind_ok,
    h4, ebind_ok, h10, ebind_ok, h12, ebind_ok]
  exact ⟨_, rfl⟩

/-- Claim C6 (amended): field absences degrade to defaults **except** that
(i) the patient scan indexes each entry's resource and type tag directly,
(ii) the patient id is read directly, and (iii) a present-but-empty
clinical-status coding list or reaction-manifestation list raises an
IndexError.  Under those provisos the run completes whenever the two fatal
input checks pass. -/
theorem claim_C6 (now : String) (b : Bundle)
    (hb : b.resourceType = some "Bundle")
    (htyped : ∀ e ∈ b.entry, entryTyped e = true)
    (hpat : ∃ e ∈ b.entry, wrapsPatient e = true)
    (hid : ∀ r ∈ b.entry.filterMap (fun e => e.resource),
      r.resourceType = some "Patient" → r.id.isSome = true)
    (hcond : ∀ c ∈ bucketOf b.entry "Condition", condStatusOkB c = true)
    (hall : ∀ a ∈ bucketOf b.entry "AllergyIntolerance", allergyOkB a = true) :
    ∃ out, process_fhir_bundle now b = .ok out := by
  obtain ⟨r, hscan, hmem, hrt⟩ := findPatientResource_ok htyped hpat
  obtain ⟨pid, hpid⟩ := Option.isSome_iff_exists.1 (hid r hmem hrt)
  obtain ⟨parts, hparts⟩ := buildParts_ok now pid
    (dictGet (extract_patient_info r) "full_name" "Unknown Patient")
    (extract_patient_info r) b.entry hcond hall
  unfold process_fhir_bundle
  rw [if_neg (by simp [hb])]
  dsimp only
  rw [hscan, ebind_ok]
  dsimp only
  rw [hpid]
  dsimp only
  rw [hparts, ebind_ok]
  exact ⟨_, rfl⟩

/-- The claim as frozen is false: an entry that lacks its wrapped resource
makes the run raise a KeyError even though the root is a Bundle and a Patient
sub-resource is present (both fatal-input checks would pass). -/
theorem claim_C6_counterexample :
    bundleBareEntry.resourceType = some "Bundle" ∧
    (∃ e ∈ bundleBareEntry.entry, wrapsPatient e = true) ∧
    process_fhir_bundle "2025-06-01" bundleBareEntry
      = .error "KeyError: resource" :=
  ⟨rfl, ⟨{ resource := some patientA }, by decide, by decide⟩, rfl⟩

theorem claim_C6_witness :
    ∃ out, process_fhir_bundle "2025-06-01" bundleA = .ok out :=
  claim_C6 "2025-06-01" bundleA rfl (by decide)
    ⟨{ resource := some patientA }, by decide, by decide⟩
    (by decide) (by decide) (by decide)

/-! ## Claim C8: the timestamp only reaches the `last_updated` fields -/

theorem patient_doc_scrub (pid pname ts1 ts2 : String) (info : Dict) :
    scrubPair (_create_patient_information_doc pid pname ts1 info)
      = scrubPair (_create_patient_information_doc pid pname ts2 info) := by
  simp [_create_patient_information_doc, scrubPair, scrubMeta, List.filter]

theorem past_meds_doc_scrub (pid pname ts1 ts2 : String) (meds : List MedItem) :
    scrubPair (_create_past_medications_doc pid pname ts1 meds)
      = scrubPair (_create_past_medications_doc pid pname ts2 meds) := by
  simp [_create_past_medications_doc, scrubPair, scrubMeta, List.filter]

theorem vitals_doc_scrub (pid pname ts1 ts2 : String) (vitals : List ObsItem) :
    scrubPair (_create_vitals_doc pid pname ts1 vitals)
      = scrubPair (_create_vitals_doc pid pname ts2 vitals) := by
  simp [_create_vitals_doc, scrubPair, scrubMeta, List.filter]

theorem labs_doc_scrub (pid pname ts1 ts2 : String) (labs : List ObsItem) :
    scrubPair (_create_labs_doc pid pname ts1 labs)
      = scrubPair (_create_labs_doc pid pname ts2 labs) := by
  simp [_create_labs_doc, scrubPair, scrubMeta, List.filter]

theorem imm_doc_scrub (pid pname ts1 ts2 : String) (imms : List Resource) :
    scrubPair (_create_immunizations_doc pid pname ts1 imms)
      = scrubPair (_create_immunizations_doc pid pname ts2 imms) := by
  simp [_create_immunizations_doc, scrubPair, scrubMeta, List.filter]

theorem proc_doc_scrub (pid pname ts1 ts2 : String) (procs : List Resource) :
    scrubPair (_create_procedures_doc pid pname ts1 procs)
      = scrubPair (_create_procedures_doc pid pname ts2 procs) := by
  simp [_create_procedures_doc, scrubPair, scrubMeta, List.filter]

theorem family_doc_scrub (pid pname ts1 ts2 : String) (fhs : List Resource) :
    scrubPair (_create_family_history_doc pid pname ts1 fhs)
      = scrubPair (_create_family_history_doc pid pname ts2 fhs) := by
  simp [_create_family_history_doc, scrubPair, scrubMeta, List.filter]

theorem active_doc_scrub (pid pname ts1 ts2 : String) (conds : List Resource) :
    (_create_active_conditions_doc pid pname ts1 conds).map scrubPair
      = (_create_active_conditions_doc pid pname ts2 conds).map scrubPair := by
  unfold _create_active_conditions_doc
  cases hf : exceptFilter
      (fun c => (condClinicalCode c).map (fun oc => oc == some "active")) conds with
  | error m => rfl
  | ok l => simp [ebind_ok, epure, emap_ok, scrubPair, scrubMeta, List.filter]

theorem past_doc_scrub (pid pname ts1 ts2 : String) (conds : List Resource) :
    (_create_past_conditions_doc pid pname ts1 conds).map scrubPair
      = (_create_past_conditions_doc pid pname ts2 conds).map scrubPair := by
  unfold _create_past_conditions_doc
  cases hf : exceptFilter
      (fun c => (condClinicalCode c).map (fun oc => !(oc == some "active"))) conds with
  | error m => rfl
  | ok l =>
    simp only [ebind_ok]
    cases hm : mapME pastCondItem (enumFrom 1 l) with
    | error m => rfl
    | ok items => simp [ebind_ok, epure, emap_ok, scrubPair, scrubMeta, List.filter]

theorem current_doc_scrub (pid pname ts1 ts2 : String) (meds : List MedItem) :
    (_create_current_medications_doc pid pname ts1 meds).map scrubPair
      = (_create_current_medications_doc pid pname ts2 meds).map scrubPair := by
  unfold _create_current_medications_doc
  cases hm : mapME currentMedItem (enumFrom 1 meds) with
  | error m => rfl
  | ok items => simp [ebind_ok, epure, emap_ok, scrubPair, scrubMeta, List.filter]

theorem allergies_doc_scrub (pid pname ts1 ts2 : String) (als : List Resource) :
    (_create_allergies_doc pid pname ts1 als).map scrubPair
      = (_create_allergies_doc pid pname ts2 als).map scrubPair := by
  unfold _create_allergies_doc
  cases hm : mapME allergyItem (enumFrom 1 als) with
  | error m => rfl
  | ok items => simp [ebind_ok, epure, emap_ok, scrubPair, scrubMeta, List.filter]

theorem social_doc_scrub (pid pname ts1 ts2 : String) (obs : List ObsItem)
    (conds : List Resource) :
    (_create_social_history_doc pid pname ts1 obs conds).map scrubPair
      = (_create_social_history_doc pid pname ts2 obs conds).map scrubPair := by
  unfold _create_social_history_doc
  cases hm : mapME socialCondItem conds with
  | error m => rfl
  | ok items => simp [ebind_ok, epure, emap_ok, scrubPair, scrubMeta, List.filter]

theorem emitE_scrub {mk1 mk2 : Except String (String × Meta)} (d : String)
    (h : mk1.map scrubPair = mk2.map scrubPair) :
    (emitE mk1 d).map scrubParts = (emitE mk2 d).map scrubParts := by
  cases mk1 with
  | error e1 =>
    cases mk2 with
    | error e2 =>
      simp only [emap_error] at h
      cases h
      rfl
    | ok p2 => simp [emap_error, emap_ok] at h
  | ok p1 =>
    cases mk2 with
    | error e2 => simp [emap_error, emap_ok] at h
    | ok p2 =>
      simp only [emap_ok, Except.ok.injEq] at h
      have h0 := congrArg (fun q : String × Meta => q.1) h
      have h3 := congrArg (fun q : String × Meta => q.2) h
      have h1 : p1.1 = p2.1 := h0
      have h2 : scrubMeta p1.2 = scrubMeta p2.2 := h3
      simp [emitE, ebind_ok, epure, emap_ok, scrubParts, scrubTriple, h1, h2]

theorem guardedE_scrub {mk1 mk2 : Except String (String × Meta)} (g : Bool)
    (d : String) (h : mk1.map scrubPair = mk2.map scrubPair) :
    ((if g then pure [] else emitE mk1 d) :
        Except String (List Triple)).map scrubParts
      = ((if g then pure [] else emitE mk2 d) :
        Except String (List Triple)).map scrubParts := by
  by_cases hg : g = true
  · rw [if_pos hg, if_pos hg]
  · rw [if_neg hg, if_neg hg]
    exact emitE_scrub d h

theorem emit_scrub {p1 p2 : String × Meta} (d : String)
    (h : scrubPair p1 = scrubPair p2) :
    scrubParts (emit p1 d) = scrubParts (emit p2 d) := by
  have h0 := congrArg (fun q : String × Meta => q.1) h
  have h3 := congrArg (fun q : String × Meta => q.2) h
  have h1 : p1.1 = p2.1 := h0
  have h2 : scrubMeta p1.2 = scrubMeta p2.2 := h3
  simp [emit, scrubParts, scrubTriple, h1, h2]

theorem emit_seg_scrub {p1 p2 : String × Meta} (g : Bool) (d : String)
    (h : scrubPair p1 = scrubPair p2) :
    scrubParts (if g then [] else emit p1 d)
      = scrubParts (if g then [] else emit p2 d) := by
  by_cases hg : g = true
  · rw [if_pos hg, if_pos hg]
  · rw [if_neg hg, if_neg hg]
    exact emit_scrub d h

theorem ebindParts_congr {e1 e2 : Except String (List Triple)}
    {k1 k2 : List Triple → Except String (List Triple)}
    (he : e1.map scrubParts = e2.map scrubParts)
    (hk : ∀ a1 a2, scrubParts a1 = scrubParts a2 →
      (k1 a1).map scrubParts = (k2 a2).map scrubParts) :
    (e1 >>= k1).map scrubParts = (e2 >>= k2).map scrubParts := by
  cases e1 with
  | error m1 =>
    cases e2 with
    | error m2 =>
      simp only [emap_error] at he
      cases he
      rfl
    | ok a2 => simp [emap_error, emap_ok] at he
  | ok a1 =>
    cases e2 with
    | error m2 => simp [emap_error, emap_ok] at he
    | ok a2 =>
      simp only [ebind_ok]
      apply hk
      simpa [emap_ok] using he

theorem scrubParts_append (l1 l2 : List Triple) :
    scrubParts (l1 ++ l2) = scrubParts l1 ++ scrubParts l2 :=
  List.map_append _ _ _

theorem buildParts_scrub (ts1 ts2 pid pname : String) (info : Dict)
    (entries : List Entry) :
    (buildParts ts1 pid pname info entries).map scrubParts
      = (buildParts ts2 pid pname info entries).map scrubParts := by
  simp only [buildParts]
  apply ebindParts_congr (emitE_scrub "active_conditions"
    (active_doc_scrub pid pname ts1 ts2 _))
  intro a1 a2 ha
  apply ebindParts_congr (emitE_scrub "past_conditions"
    (past_doc_scrub pid pname ts1 ts2 _))
  intro b1 b2 hb
  apply ebindParts_congr (guardedE_scrub _ "current_medications"
    (current_doc_scrub pid pname ts1 ts2 _))
  intro c1 c2 hc
  apply ebindParts_congr (guardedE_scrub _ "allergies"
    (allergies_doc_scrub pid pname ts1 ts2 _))
  intro d1 d2 hd
  apply ebindParts_congr (guardedE_scrub _ "social_history"
    (social_doc_scrub pid pname ts1 ts2 _ _))
  intro e1 e2 he
  simp only [epure, emap_ok, Except.ok.injEq]
  simp only [scrubParts_append]
  rw [emit_scrub "patient_information" (patient_doc_scrub pid pname ts1 ts2 info),
    ha, hb, hc, hd, he,
    emit_seg_scrub _ "past_medications" (past_meds_doc_scrub pid pname ts1 ts2 _),
    emit_seg_scrub _ "recent_vitals" (vitals_doc_scrub pid pname ts1 ts2 _),
    emit_seg_scrub _ "recent_labs" (labs_doc_scrub pid pname ts1 ts2 _),
    emit_seg_scrub _ "immunizations" (imm_doc_scrub pid pname ts1 ts2 _),
    emit_seg_scrub _ "procedures" (proc_doc_scrub pid pname ts1 ts2 _),
    emit_seg_scrub _ "family_history" (family_doc_scrub pid pname ts1 ts2 _)]

/-- Claim C8: with the generation timestamp made explicit, the run is a pure
function of (timestamp, bundle) — so two runs on an identical bundle with a
frozen timestamp are byte-identical — and changing only the timestamp leaves
every document text, document id and metadata field except `last_updated`
unchanged. -/
theorem claim_C8 (b : Bundle) (ts1 ts2 : String) :
    (process_fhir_bundle ts1 b).map scrubResult
      = (process_fhir_bundle ts2 b).map scrubResult := by
  unfold process_fhir_bundle
  by_cases hrt : b.resourceType ≠ some "Bundle"
  · rw [if_pos hrt, if_pos hrt]
  · rw [if_neg hrt, if_neg hrt]
    dsimp only
    cases hscan : findPatientResource b.entry with
    | error m => rfl
    | ok patient? =>
      cases patient? with
      | none => rfl
      | some r =>
        simp only [ebind_ok]
        cases hpid : r.id with
        | none => rfl
        | some pid =>
          dsimp only
          cases h1 : buildParts ts1 pid
              (dictGet (extract_patient_info r) "full_name" "Unknown Patient")
              (extract_patient_info r) b.entry with
          | error m1 =>
            cases h2 : buildParts ts2 pid
                (dictGet (extract_patient_info r) "full_name" "Unknown Patient")
                (extract_patient_info r) b.entry with
            | error m2 =>
              have hbp := buildParts_scrub ts1 ts2 pid
                (dictGet (extract_patient_info r) "full_name" "Unknown Patient")
                (extract_patient_info r) b.entry
              rw [h1, h2] at hbp
              simp only [emap_error] at hbp
              cases hbp
              rfl
            | ok parts2 =>
              have hbp := buildParts_scrub ts1 ts2 pid
                (dictGet (extract_patient_info r) "full_name" "Unknown Patient")
                (extract_patient_info r) b.entry
              rw [h1, h2] at hbp
              simp [emap_error, emap_ok] at hbp
          | ok parts1 =>
            cases h2 : buildParts ts2 pid
                (dictGet (extract_patient_info r) "full_name" "Unknown Patient")
                (extract_patient_info r) b.entry with
            | error m2 =>
              have hbp := buildParts_scrub ts1 ts2 pid
                (dictGet (extract_patient_info r) "full_name" "Unknown Patient")
                (extract_patient_info r) b.entry
              rw [h1, h2] at hbp
              simp [emap_error, emap_ok] at hbp
            | ok parts2 =>
              have hbp := buildParts_scrub ts1 ts2 pid
                (dictGet (extract_patient_info r) "full_name" "Unknown Patient")
                (extract_patient_info r) b.entry
              rw [h1, h2] at hbp
              simp only [emap_ok, Except.ok.injEq] at hbp
              have hlen : parts1.length = parts2.length := by
                have := congrArg List.length hbp
                simpa [scrubParts] using this
              have hids : parts1.map (fun x => x.2.2)
                  = parts2.map (fun x => x.2.2) := by
                have := congrArg (List.map (fun x : Triple => x.2.2)) hbp
                simpa [scrubParts, List.map_map, Function.comp, scrubTriple]
                  using this
              have hdocs : parts1.map (fun x => x.1)
                  = parts2.map (fun x => x.1) := by
                have := congrArg (List.map (fun x : Triple => x.1)) hbp
                simpa [scrubParts, List.map_map, Function.comp, scrubTriple]
                  using this
              have hmeta : (parts1.map (fun x => x.2.1)).map scrubMeta
                  = (parts2.map (fun x => x.2.1)).map scrubMeta := by
                have := congrArg (List.map (fun x : Triple => x.2.1)) hbp
                simpa [scrubParts, List.map_map, Function.comp, scrubTriple]
                  using this
              simp [ebind_ok, epure, emap_ok, scrubResult, hlen, hids, hdocs,
                hmeta]
